import Mathlib

/-!
# Shallow embedding of the NISO quantum-circuit / TQQC optimization crates

This file embeds the parts of the NISO Rust workspace that the verified
claims are about, and proves (or refutes) each claim against the embedding.

Modelling conventions:

* Rust `f64` values are modelled as exact rationals (`ℚ`).  Every operation
  the embedded functions perform on them is a field operation, a comparison,
  an absolute value, a `clamp`, or a `floor`, all of which are exact over `ℚ`.
  The one exception is `f64::sqrt` inside `StatisticalTest`: the embedding
  decides the comparisons `sqrt se_sq < 1e-10` and `diff / sqrt se_sq > crit`
  by the equivalent square-free comparisons `se_sq < (1e-10)^2` and
  `diff^2 > crit^2 * se_sq` (valid because all quantities compared are
  nonnegative; the bridge back to `Real.sqrt` is proved as a theorem).
* Rust `usize`/`u64` are modelled as `ℕ`, `i64` as `ℤ`.
* `VecDeque<f64>` is a `List ℚ` (front of the deque = head of the list).
* `HashMap<String, u64>` counts are association lists `List (Bitstring × ℕ)`,
  and measurement bitstrings are `List Bool` (MSB first, `true` = the
  character `1`).
* The `rand::StdRng` generator is modelled abstractly: a state type `σ`
  together with the operations the code calls (`seed_from_u64`,
  `gen::<f64>()`, `gen_range(0..3)`), bundled in `RngModel`.  The simulator
  threads the generator state explicitly, exactly as the Rust code threads
  `&mut StdRng`.
* The trigonometric functions and the square root used by the state-vector
  gate kernels are bundled in an abstract `RealOps` parameter; the claims
  about the simulator do not depend on their values.
-/

namespace Niso

/-! ## `niso_core::constants` -/

namespace stats

/-- `niso_core::constants::stats::Z_CRIT_90` -/
def Z_CRIT_90 : ℚ := 1645 / 1000

/-- `niso_core::constants::stats::Z_CRIT_95` -/
def Z_CRIT_95 : ℚ := 1960 / 1000

/-- `niso_core::constants::stats::Z_CRIT_975` (the literal `2.24` in
`stat_test.rs` has the same value) -/
def Z_CRIT_975 : ℚ := 2240 / 1000

/-- `niso_core::constants::stats::Z_CRIT_99` -/
def Z_CRIT_99 : ℚ := 2575 / 1000

end stats

namespace tqqc

/-- `niso_core::constants::tqqc::THRESHOLD_5Q` (`0.030`) -/
def THRESHOLD_5Q : ℚ := 30 / 1000

/-- `niso_core::constants::tqqc::circuit_depth`: linear-chain CNOT depth,
`N - 1` CNOTs for `N > 0`. -/
def circuit_depth (num_qubits : ℕ) : ℕ :=
  if num_qubits > 0 then num_qubits - 1 else 0

/-- `niso_core::constants::tqqc::depth_ratio`: depth relative to the 5-qubit
reference (4 CNOTs). -/
def depth_factor (num_qubits : ℕ) : ℚ :=
  let depth : ℚ := circuit_depth num_qubits
  let ref_depth : ℚ := circuit_depth 5
  if ref_depth > 0 then depth / ref_depth else 1

/-- `niso_core::constants::tqqc::threshold_for_qubits`:
`THRESHOLD_5Q / depth_ratio` when the depth factor is positive. -/
def threshold_for_qubits (num_qubits : ℕ) : ℚ :=
  let r := depth_factor num_qubits
  if r > 0 then THRESHOLD_5Q / r else THRESHOLD_5Q

end tqqc

/-! ## `niso_tqqc::convergence` -/

/-- `niso_tqqc::convergence::Convergence`. -/
structure Convergence where
  window : ℕ
  threshold_abs : ℚ
  threshold_cum : ℚ
  history : List ℚ
  cumulative : ℚ
  deriving DecidableEq

namespace Convergence

/-- `Convergence::depth_correction`:
`threshold_N = threshold_Nref × (D_Nref / D_N)` where `D_N = N - 1`
(the subtraction is Rust `saturating_sub`, i.e. `ℕ` subtraction). -/
def depth_correction (qubits ref_qubits : ℕ) (ref_threshold : ℚ) : ℚ :=
  let d_n : ℚ := (qubits - 1 : ℕ)
  let d_ref : ℚ := (ref_qubits - 1 : ℕ)
  if d_n > 0 ∧ d_ref > 0 then ref_threshold * (d_ref / d_n) else ref_threshold

/-- `Convergence::new`. -/
def new (qubits : ℕ) (base_threshold : ℚ) : Convergence :=
  let threshold_abs := depth_correction qubits 5 base_threshold
  { window := 3
    threshold_abs := threshold_abs
    threshold_cum := threshold_abs * (15 / 10)
    history := []
    cumulative := 0 }

/-- `Convergence::from_noise`: base threshold 0.030 for noise ≤ 0.02,
0.040 above. -/
def from_noise (qubits : ℕ) (noise : ℚ) : Convergence :=
  let base : ℚ := if noise ≤ 2 / 100 then 30 / 1000 else 40 / 1000
  new qubits base

/-- `Convergence::push`: append the improvement, add it to the cumulative
sum, then pop from the front while the history exceeds the window.  The
`while` loop is the same as dropping `length - window` elements from the
front. -/
def push (c : Convergence) (improvement : ℚ) : Convergence :=
  let history := c.history ++ [improvement]
  { c with
    history := history.drop (history.length - c.window)
    cumulative := c.cumulative + improvement }

/-- `Convergence::window_condition`: false until the window is full, then
all recent improvements must be below the absolute threshold in magnitude. -/
def window_condition (c : Convergence) : Bool :=
  if c.history.length < c.window then false
  else c.history.all fun imp => decide (|imp| < c.threshold_abs)

/-- `Convergence::cumulative_condition`. -/
def cumulative_condition (c : Convergence) : Bool :=
  decide (|c.cumulative| < c.threshold_cum)

/-- `Convergence::check`. -/
def check (c : Convergence) : Bool :=
  c.window_condition && c.cumulative_condition

end Convergence

/-- `niso_tqqc::convergence::DynamicInner`. -/
structure DynamicInner where
  inner_max : ℕ
  decay_rate : ℚ
  safety_cap : ℕ

namespace DynamicInner

/-- `DynamicInner::new` (the safety cap is always 5). -/
def new (inner_max : ℕ) (decay_rate : ℚ) : DynamicInner :=
  { inner_max := inner_max, decay_rate := decay_rate, safety_cap := 5 }

/-- `DynamicInner::default_tqqc`. -/
def default_tqqc : DynamicInner := new 10 (9 / 10)

/-- `DynamicInner::compute_count`:
`raw = 1 + 2·⌊|g| / max τ 1e-9⌋`, capped by the safety cap, then clamped to
`[1, inner_max]`.  The cast `as usize` of the nonnegative float floor is
`Nat.floor`. -/
def compute_count (d : DynamicInner) (last_improve threshold : ℚ) : ℕ :=
  let tau := max threshold (1 / 10 ^ 9)
  let raw := 1 + 2 * Nat.floor (|last_improve| / tau)
  let capped := min raw d.safety_cap
  min (max capped 1) d.inner_max

/-- `DynamicInner::compute_step`: `base_step · decay_rate^j`. -/
def compute_step (d : DynamicInner) (j : ℕ) (base_step : ℚ) : ℚ :=
  base_step * d.decay_rate ^ j

end DynamicInner

/-! ## `niso_tqqc::config` (the parts the engine and the tests use) -/

/-- `niso_tqqc::config::SigMode`. -/
inductive SigMode
  | Fixed
  | Adaptive
  deriving DecidableEq

/-- `niso_tqqc::config::DeltaMode`. -/
inductive DeltaMode
  | Track
  | Reset
  deriving DecidableEq

/-! ## `niso_tqqc::stat_test` -/

/-- `niso_tqqc::stat_test::Direction`. -/
inductive Direction
  | Plus
  | Minus
  | Stay
  deriving DecidableEq

/-- `niso_tqqc::stat_test::TestResult`.  The Rust struct also carries the
floating-point fields `z_score` and `z_critical`; they are diagnostic
outputs (the square root makes them irrational in general) and are not
carried in the embedding — the decision fields are. -/
structure TestResult where
  is_significant : Bool
  direction : Option Direction
  is_tie : Bool
  deriving DecidableEq

namespace TestResult

/-- `TestResult::significant`. -/
def significant (direction : Direction) : TestResult :=
  { is_significant := true, direction := some direction, is_tie := false }

/-- `TestResult::insignificant`. -/
def insignificant : TestResult :=
  { is_significant := false, direction := none, is_tie := false }

/-- `TestResult::tie`. -/
def tie : TestResult :=
  { is_significant := false, direction := none, is_tie := true }

end TestResult

/-- `niso_tqqc::stat_test::StatisticalTest`. -/
structure StatisticalTest where
  mode : SigMode
  level : ℚ

namespace StatisticalTest

/-- `StatisticalTest::fixed`. -/
def fixed (level : ℚ) : StatisticalTest := ⟨SigMode.Fixed, level⟩

/-- `StatisticalTest::adaptive`. -/
def adaptive (level : ℚ) : StatisticalTest := ⟨SigMode.Adaptive, level⟩

/-- `StatisticalTest::fixed_critical`. -/
def fixed_critical (st : StatisticalTest) : ℚ :=
  if st.level ≥ 99 / 100 then stats.Z_CRIT_99
  else if st.level ≥ 95 / 100 then stats.Z_CRIT_95
  else stats.Z_CRIT_90

/-- The trailing quantile selection of `adaptive_critical` (its final
`if`/`else if` chain over the adjusted level).  The `2.24` branch uses the
literal from the source, equal to `stats.Z_CRIT_975`. -/
def adaptive_quantile (adjusted_level : ℚ) : ℚ :=
  if adjusted_level ≥ 99 / 100 then stats.Z_CRIT_99
  else if adjusted_level ≥ 975 / 1000 then 224 / 100
  else if adjusted_level ≥ 95 / 100 then stats.Z_CRIT_95
  else stats.Z_CRIT_90

/-- `StatisticalTest::adaptive_critical`: adjust the level for noise and
shot count, clamp to `[0.90, 0.99]`, then map to a quantile.  Rust
`f64::clamp(lo, hi)` is `max lo (min x hi)`. -/
def adaptive_critical (st : StatisticalTest) (shots : ℕ) (noise : ℚ) : ℚ :=
  let adjusted_level := st.level
  let adjusted_level := if noise > 2 / 100 then adjusted_level + 25 / 1000 else adjusted_level
  let adjusted_level := if shots < 4096 then adjusted_level + 25 / 1000 else adjusted_level
  let adjusted_level := if shots ≥ 16384 then adjusted_level - 5 / 100 else adjusted_level
  adaptive_quantile (max (90 / 100) (min adjusted_level (99 / 100)))

/-- `StatisticalTest::z_critical`. -/
def z_critical (st : StatisticalTest) (shots : ℕ) (noise : ℚ) : ℚ :=
  match st.mode with
  | SigMode.Fixed => st.fixed_critical
  | SigMode.Adaptive => st.adaptive_critical shots noise

/-- The squared standard error of `StatisticalTest::compute_z_from_parity`:
`se² = (1 - parity_plus²)/shots + (1 - parity_minus²)/shots`. -/
def se_sq_from_parity (parity_plus parity_minus : ℚ) (shots : ℕ) : ℚ :=
  (1 - parity_plus ^ 2) / shots + (1 - parity_minus ^ 2) / shots

/-- Decides `compute_z_from_parity(parity_plus, parity_minus, shots) > crit`
for the (always positive) critical values.  The Rust function returns `z = 0`
when `shots == 0` or when `se = sqrt(se²) < 1e-10`, and `0 > crit` is false;
otherwise `z = |Δ| / se > crit ↔ Δ² > crit²·se²` since both sides are
nonnegative.  (For `se² < 0` — impossible for parities in `[-1,1]` — Rust
produces NaN and every comparison on it is false, so the result is likewise
not significant, matching the `se² < 1e-20` branch here.) -/
def z_from_parity_exceeds (parity_plus parity_minus : ℚ) (shots : ℕ) (crit : ℚ) : Bool :=
  if shots = 0 then false
  else
    let se_sq := se_sq_from_parity parity_plus parity_minus shots
    if se_sq < (1 / 10 ^ 10) ^ 2 then false
    else decide ((parity_plus - parity_minus) ^ 2 > crit ^ 2 * se_sq)

/-- `niso_core::constants::stats::TIE_EPSILON`. -/
def TIE_EPSILON : ℚ := 1 / 10 ^ 9

/-- `StatisticalTest::test`. -/
def test (st : StatisticalTest) (parity_plus parity_minus : ℚ) (shots : ℕ)
    (noise : ℚ) : TestResult :=
  if |parity_plus - parity_minus| < TIE_EPSILON then TestResult.tie
  else
    let crit := st.z_critical shots noise
    if z_from_parity_exceeds parity_plus parity_minus shots crit then
      TestResult.significant
        (if parity_plus > parity_minus then Direction.Plus else Direction.Minus)
    else TestResult.insignificant

end StatisticalTest

/-! ## `niso_tqqc::parity` (parity computation over measurement counts) -/

/-- A measurement bitstring, MSB first (`true` = the character `1`). -/
abbrev Bitstring := List Bool

/-- `niso_core::Counts`: a map from bitstring to occurrence count, embedded
as an association list. -/
abbrev Counts := List (Bitstring × ℕ)

namespace Parity

/-- `Parity::popcount`: number of `1` characters. -/
def popcount (bs : Bitstring) : ℕ := bs.count true

/-- `Parity::is_even`. -/
def is_even (bs : Bitstring) : Bool := popcount bs % 2 = 0

/-- Total number of shots recorded in a counts map. -/
def total (counts : Counts) : ℕ := (counts.map Prod.snd).sum

/-- `Parity::p_even`: probability of even parity; `0.5` for an empty
counts map. -/
def p_even (counts : Counts) : ℚ :=
  if total counts = 0 then 1 / 2
  else
    let even_count : ℕ := ((counts.filter fun e => is_even e.1).map Prod.snd).sum
    (even_count : ℚ) / (total counts : ℚ)

/-- `Parity::p_odd`. -/
def p_odd (counts : Counts) : ℚ := 1 - p_even counts

/-- `Parity::expectation`: signed sum `Σ_b (-1)^popcount(b) · count(b)`
divided by the total; `0` for an empty counts map. -/
def expectation (counts : Counts) : ℚ :=
  if total counts = 0 then 0
  else
    let weighted_sum : ℤ :=
      (counts.map fun e => (if is_even e.1 then (1 : ℤ) else -1) * (e.2 : ℤ)).sum
    (weighted_sum : ℚ) / (total counts : ℚ)

end Parity

/-! ## `niso_core::gate` -/

/-- `niso_core::types::QubitId` (`usize`). -/
abbrev QubitId := ℕ

/-- `niso_core::types::Angle` (`f64`, modelled as `ℚ`). -/
abbrev Angle := ℚ

/-- `niso_core::types::Basis`. -/
inductive Basis
  | X
  | Y
  | Z
  deriving DecidableEq

/-- `niso_core::gate::Gate`: the full gate enum. -/
inductive Gate
  | H (q : QubitId)
  | X (q : QubitId)
  | Y (q : QubitId)
  | Z (q : QubitId)
  | S (q : QubitId)
  | Sdg (q : QubitId)
  | T (q : QubitId)
  | Tdg (q : QubitId)
  | Sx (q : QubitId)
  | Sxdg (q : QubitId)
  | Id (q : QubitId)
  | Rx (q : QubitId) (angle : Angle)
  | Ry (q : QubitId) (angle : Angle)
  | Rz (q : QubitId) (angle : Angle)
  | U (q : QubitId) (theta phi lambda : Angle)
  | P (q : QubitId) (lambda : Angle)
  | Cnot (c t : QubitId)
  | Cz (c t : QubitId)
  | Cy (c t : QubitId)
  | Swap (a b : QubitId)
  | ISwap (a b : QubitId)
  | Crz (c t : QubitId) (angle : Angle)
  | Crx (c t : QubitId) (angle : Angle)
  | Cry (c t : QubitId) (angle : Angle)
  | Ecr (c t : QubitId)
  | Ccx (c1 c2 t : QubitId)
  | Cswap (c a b : QubitId)
  | Measure (q : QubitId)
  | MeasureAll
  | Barrier (qs : List QubitId)
  | Reset (q : QubitId)
  deriving DecidableEq

namespace Gate

/-- `Gate::qubits`. -/
def qubits : Gate → List QubitId
  | H q | X q | Y q | Z q | S q | Sdg q | T q | Tdg q | Sx q | Sxdg q | Id q
  | Rx q _ | Ry q _ | Rz q _ | U q _ _ _ | P q _ | Measure q | Reset q => [q]
  | Cnot c t | Cz c t | Cy c t | Swap c t | ISwap c t | Ecr c t
  | Crz c t _ | Crx c t _ | Cry c t _ => [c, t]
  | Ccx c1 c2 t | Cswap c1 c2 t => [c1, c2, t]
  | MeasureAll => []
  | Barrier qs => qs

/-- `Gate::is_single_qubit`. -/
def is_single_qubit : Gate → Bool
  | H _ | X _ | Y _ | Z _ | S _ | Sdg _ | T _ | Tdg _ | Sx _ | Sxdg _ | Id _
  | Rx _ _ | Ry _ _ | Rz _ _ | U _ _ _ _ | P _ _ => true
  | _ => false

/-- `Gate::is_two_qubit`. -/
def is_two_qubit : Gate → Bool
  | Cnot _ _ | Cz _ _ | Cy _ _ | Swap _ _ | ISwap _ _ | Ecr _ _
  | Crz _ _ _ | Crx _ _ _ | Cry _ _ _ => true
  | _ => false

/-- `Gate::is_three_qubit`. -/
def is_three_qubit : Gate → Bool
  | Ccx _ _ _ | Cswap _ _ _ => true
  | _ => false

/-- `Gate::is_measurement`. -/
def is_measurement : Gate → Bool
  | Measure _ | MeasureAll => true
  | _ => false

/-- `Gate::is_barrier`. -/
def is_barrier : Gate → Bool
  | Barrier _ => true
  | _ => false

/-- `Gate::basis_transform`: X basis → H; Y basis → Sdg then H; Z → none. -/
def basis_transform (qubit : QubitId) : Basis → List Gate
  | Basis.X => [H qubit]
  | Basis.Y => [Sdg qubit, H qubit]
  | Basis.Z => []

end Gate

/-- `niso_core::gate::EntanglerType`. -/
inductive EntanglerType
  | Cx
  | Cz
  deriving DecidableEq

/-- `EntanglerType::gate`. -/
def EntanglerType.gate : EntanglerType → QubitId → QubitId → Gate
  | EntanglerType.Cx, control, target => Gate.Cnot control target
  | EntanglerType.Cz, control, target => Gate.Cz control target

/-! ## `niso_core::error` (the variants the embedded code constructs) -/

/-- `niso_core::error::NisoError` (restricted to the variants reached by the
embedded functions). -/
inductive NisoError
  | GateQubitMismatch (qubit : QubitId) (num_qubits : ℕ)
  | QubitOutOfRange (qubit : ℕ) (max : ℕ)
  | EmptyCircuit
  deriving DecidableEq

/-! ## `niso_core::circuit` -/

/-- `niso_core::circuit::Circuit`.  The optional `name` field carries no
behaviour relevant to the claims and is omitted. -/
structure Circuit where
  num_qubits : ℕ
  gates : List Gate
  deriving DecidableEq

namespace Circuit

/-- `Circuit::new`. -/
def new (num_qubits : ℕ) : Circuit := ⟨num_qubits, []⟩

/-- `Circuit::add_gate`: scan the gate qubits for the first out-of-range
index; on success push the gate. -/
def add_gate (c : Circuit) (gate : Gate) : Except NisoError Circuit :=
  match gate.qubits.find? fun q => decide (q ≥ c.num_qubits) with
  | some q => Except.error (NisoError.GateQubitMismatch q c.num_qubits)
  | none => Except.ok { c with gates := c.gates ++ [gate] }

/-- `Circuit::validate_gates` (used by `from_gates`). -/
def validate_gates (c : Circuit) : Except NisoError Unit :=
  match (c.gates.flatMap Gate.qubits).find? (fun q => decide (q ≥ c.num_qubits)) with
  | some q => Except.error (NisoError.GateQubitMismatch q c.num_qubits)
  | none => Except.ok ()

/-- `Circuit::from_gates`. -/
def from_gates (num_qubits : ℕ) (gates : List Gate) : Except NisoError Circuit :=
  let circuit : Circuit := ⟨num_qubits, gates⟩
  match circuit.validate_gates with
  | Except.error e => Except.error e
  | Except.ok _ => Except.ok circuit

/-- `Circuit::clear`. -/
def clear (c : Circuit) : Circuit := { c with gates := [] }

/-- `Circuit::is_empty`. -/
def is_empty (c : Circuit) : Bool := c.gates.isEmpty

/-- `Circuit::gate_count`. -/
def gate_count (c : Circuit) : ℕ := c.gates.length

end Circuit

/-! ## `niso_core::builder` -/

/-- `niso_core::builder::CircuitBuilder`. -/
structure CircuitBuilder where
  circuit : Circuit

namespace CircuitBuilder

/-- `CircuitBuilder::new`. -/
def new (num_qubits : ℕ) : CircuitBuilder := ⟨Circuit.new num_qubits⟩

/-- The `let _ = self.circuit.add_gate(gate);` pattern every builder method
uses: try to add the gate, and silently keep the previous circuit when
`add_gate` errors. -/
def add_ignored (b : CircuitBuilder) (gate : Gate) : CircuitBuilder :=
  match b.circuit.add_gate gate with
  | Except.ok c => ⟨c⟩
  | Except.error _ => b

/-- `CircuitBuilder::h`. -/
def h (b : CircuitBuilder) (qubit : QubitId) : CircuitBuilder :=
  b.add_ignored (Gate.H qubit)

/-- `CircuitBuilder::x`. -/
def x (b : CircuitBuilder) (qubit : QubitId) : CircuitBuilder :=
  b.add_ignored (Gate.X qubit)

/-- `CircuitBuilder::rz`. -/
def rz (b : CircuitBuilder) (qubit : QubitId) (angle : Angle) : CircuitBuilder :=
  b.add_ignored (Gate.Rz qubit angle)

/-- `CircuitBuilder::cnot`. -/
def cnot (b : CircuitBuilder) (control target : QubitId) : CircuitBuilder :=
  b.add_ignored (Gate.Cnot control target)

/-- `CircuitBuilder::cz`. -/
def cz (b : CircuitBuilder) (control target : QubitId) : CircuitBuilder :=
  b.add_ignored (Gate.Cz control target)

/-- `CircuitBuilder::measure`. -/
def measure (b : CircuitBuilder) (qubit : QubitId) : CircuitBuilder :=
  b.add_ignored (Gate.Measure qubit)

/-- `CircuitBuilder::measure_all`. -/
def measure_all (b : CircuitBuilder) : CircuitBuilder :=
  b.add_ignored Gate.MeasureAll

/-- `CircuitBuilder::barrier_on`. -/
def barrier_on (b : CircuitBuilder) (qubits : List QubitId) : CircuitBuilder :=
  b.add_ignored (Gate.Barrier qubits)

/-- `CircuitBuilder::entangler_chain`: entangling gate on each adjacent pair
`(i, i+1)` of the linear chain. -/
def entangler_chain (b : CircuitBuilder) (entangler : EntanglerType) : CircuitBuilder :=
  (List.range (b.circuit.num_qubits - 1)).foldl
    (fun b i => b.add_ignored (entangler.gate i (i + 1))) b

/-- `CircuitBuilder::apply_basis` (basis strings are lists of `Basis`; the
Rust loop breaks at the first index reaching `num_qubits`, which
`takeWhile` mirrors since `enumerate` indices increase; adding gates never
changes `num_qubits`). -/
def apply_basis (b : CircuitBuilder) (basis : List Basis) : CircuitBuilder :=
  (basis.enum.takeWhile fun e => decide (e.1 < b.circuit.num_qubits)).foldl
    (fun acc e => (Gate.basis_transform e.1 e.2).foldl add_ignored acc) b

/-- `CircuitBuilder::tqqc_parity`: H(0), entangler chain, Rz(θ+δ) on
qubit 0, basis transformation, measure-all. -/
def tqqc_parity (b : CircuitBuilder) (theta delta : Angle)
    (entangler : EntanglerType) (basis : List Basis) : CircuitBuilder :=
  ((((b.h 0).entangler_chain entangler).rz 0 (theta + delta)).apply_basis basis).measure_all

/-- `CircuitBuilder::build`. -/
def build (b : CircuitBuilder) : Circuit := b.circuit

end CircuitBuilder

/-! ## `niso_noise::noise_model` (the accessors the simulator uses) -/

/-- `niso_noise::noise_model::NoiseModel`.  T1/T2 and crosstalk are carried
for completeness; only the error-rate accessors matter for the claims.
(`f64::INFINITY` for the ideal model is represented by `0` T-times here;
no embedded function reads them.) -/
structure NoiseModel where
  t1_us : ℚ
  t2_us : ℚ
  gate_error_1q : ℚ
  gate_error_2q : ℚ
  readout_error : ℚ
  deriving DecidableEq

namespace NoiseModel

/-- `NoiseModel::ideal`. -/
def ideal : NoiseModel :=
  { t1_us := 0, t2_us := 0, gate_error_1q := 0, gate_error_2q := 0, readout_error := 0 }

/-- `NoiseModel::ibm_typical`. -/
def ibm_typical : NoiseModel :=
  { t1_us := 100, t2_us := 60, gate_error_1q := 3 / 10 ^ 4, gate_error_2q := 1 / 100
    readout_error := 1 / 100 }

end NoiseModel

/-! ## `niso_noise::gate_times` and `niso_schedule` -/

/-- `niso_noise::gate_times::GateTimes`.  Overrides are keyed by
`Gate::name()` in Rust; gates sharing a name share an override, which the
`Gate → Option ℚ` field captures when it factors through the name (all
claims quantify over arbitrary tables). -/
structure GateTimes where
  single_qubit_ns : ℚ
  two_qubit_ns : ℚ
  measurement_ns : ℚ
  gate_overrides : Gate → Option ℚ

namespace GateTimes

/-- `GateTimes::gate_duration`: override first, then by gate class. -/
def gate_duration (gt : GateTimes) (gate : Gate) : ℚ :=
  match gt.gate_overrides gate with
  | some time => time
  | none =>
    if gate.is_measurement then gt.measurement_ns
    else if gate.is_two_qubit then gt.two_qubit_ns
    else if gate.is_three_qubit then gt.two_qubit_ns * 6
    else if gate.is_single_qubit then gt.single_qubit_ns
    else if gate.is_barrier then 0
    else gt.single_qubit_ns

end GateTimes

/-- `niso_schedule::scheduled_gate::ScheduledGate`. -/
structure ScheduledGate where
  gate_idx : ℕ
  gate : Gate
  start_time_ns : ℚ
  end_time_ns : ℚ

/-- `niso_schedule::circuit_schedule::CircuitSchedule`. -/
structure CircuitSchedule where
  gates : List ScheduledGate
  total_duration_ns : ℚ
  num_qubits : ℕ
  qubit_end_times : List ℚ

/-- `CircuitSchedule::empty`. -/
def CircuitSchedule.empty (num_qubits : ℕ) : CircuitSchedule :=
  ⟨[], 0, num_qubits, List.replicate num_qubits 0⟩

namespace Scheduler

/-- Rust `iter().cloned().fold(0.0, f64::max)`. -/
def fold_max (l : List ℚ) : ℚ := l.foldl max 0

/-- `Scheduler::schedule_gate`: start at the latest availability among the
gate qubits (over all qubits for zero-qubit operations), end after the
gate duration. -/
def schedule_gate (gate : Gate) (qubit_available : List ℚ) (gate_times : GateTimes) :
    ℚ × ℚ :=
  let qubits := gate.qubits
  let duration := gate_times.gate_duration gate
  let start_time :=
    if qubits.isEmpty then fold_max qubit_available
    else fold_max (qubits.filterMap fun q => qubit_available.get? q)
  (start_time, start_time + duration)

/-- `Scheduler::update_availability`: advance every touched qubit (all
qubits for zero-qubit operations) to the end time. -/
def update_availability (gate : Gate) (end_time : ℚ) (qubit_available : List ℚ)
    (num_qubits : ℕ) : List ℚ :=
  let qubits := gate.qubits
  if qubits.isEmpty then qubit_available.map fun _ => end_time
  else qubits.foldl
    (fun avail q => if q < num_qubits then avail.set q end_time else avail)
    qubit_available

/-- The body of the `for (gate_idx, gate)` loop of `compute_asap`, as a
recursion over the remaining gates. -/
def asap_loop (gate_times : GateTimes) (num_qubits : ℕ) :
    List Gate → ℕ → List ℚ → List ScheduledGate × List ℚ
  | [], _, qubit_available => ([], qubit_available)
  | gate :: rest, gate_idx, qubit_available =>
    let se := schedule_gate gate qubit_available gate_times
    let avail := update_availability gate se.2 qubit_available num_qubits
    let r := asap_loop gate_times num_qubits rest (gate_idx + 1) avail
    (⟨gate_idx, gate, se.1, se.2⟩ :: r.1, r.2)

/-- `Scheduler::compute_asap`. -/
def compute_asap (circuit : Circuit) (gate_times : GateTimes) : CircuitSchedule :=
  let num_qubits := circuit.num_qubits
  if circuit.is_empty then CircuitSchedule.empty num_qubits
  else
    let r := asap_loop gate_times num_qubits circuit.gates 0
      (List.replicate num_qubits 0)
    ⟨r.1, fold_max r.2, num_qubits, r.2⟩

end Scheduler

/-! ## `niso_backend::simulator` -/

/-- Abstract model of the nonrational `f64` functions the gate kernels call
(`sqrt`, `cos`, `sin`).  The claims about the simulator hold for every
interpretation. -/
structure RealOps where
  sqrt : ℚ → ℚ
  cos : ℚ → ℚ
  sin : ℚ → ℚ

/-- A trivial interpretation used to instantiate witnesses. -/
def RealOps.trivial : RealOps := ⟨fun _ => 0, fun _ => 1, fun _ => 0⟩

/-- The private `Complex` helper of `simulator.rs` (two `f64` fields). -/
structure Cplx where
  re : ℚ
  im : ℚ
  deriving DecidableEq

namespace Cplx

/-- `Complex::new`. -/
def mk2 (re im : ℚ) : Cplx := ⟨re, im⟩

/-- `Complex::zero`. -/
def zero : Cplx := ⟨0, 0⟩

/-- `Complex::one`. -/
def one : Cplx := ⟨1, 0⟩

/-- `impl Add for Complex`. -/
def add (a b : Cplx) : Cplx := ⟨a.re + b.re, a.im + b.im⟩

/-- `impl Sub for Complex`. -/
def sub (a b : Cplx) : Cplx := ⟨a.re - b.re, a.im - b.im⟩

/-- `impl Mul for Complex`. -/
def mul (a b : Cplx) : Cplx :=
  ⟨a.re * b.re - a.im * b.im, a.re * b.im + a.im * b.re⟩

/-- `impl Mul<f64> for Complex`. -/
def smul (a : Cplx) (s : ℚ) : Cplx := ⟨a.re * s, a.im * s⟩

/-- `Complex::from_polar` (via the abstract trigonometric functions). -/
def from_polar (ops : RealOps) (r theta : ℚ) : Cplx :=
  ⟨r * ops.cos theta, r * ops.sin theta⟩

/-- `Complex::norm_squared`. -/
def norm_squared (a : Cplx) : ℚ := a.re * a.re + a.im * a.im

end Cplx

/-- Abstract model of `rand::StdRng`: a generator state type with the calls
the simulator and engine make.  `gen_f64` models `rng.gen::<f64>()`
(uniform in `[0,1)`), `gen_range3` models `rng.gen_range(0..3)`. -/
structure RngModel (σ : Type) where
  seed_from_u64 : ℕ → σ
  gen_f64 : σ → ℚ × σ
  gen_range3 : σ → ℕ × σ

/-- A deterministic counting generator used for witnesses and
counterexamples: the state is the number of draws made so far. -/
def countRng : RngModel ℕ :=
  { seed_from_u64 := fun seed => seed
    gen_f64 := fun s => (0, s + 1)
    gen_range3 := fun s => (s % 3, s + 1) }

namespace SimulatorBackend

/-- `SimulatorBackend::apply_single_qubit_gate`: for every index with the
qubit bit clear, transform the amplitude pair `(state[i], state[i | mask])`. -/
def apply_single_qubit_gate (state : List Cplx) (q n : ℕ)
    (f : Cplx → Cplx → Cplx × Cplx) : List Cplx :=
  let mask := 2 ^ q
  (List.range (2 ^ n)).foldl
    (fun st i =>
      if i &&& mask = 0 then
        let j := i ||| mask
        let p := f (st.getD i Cplx.zero) (st.getD j Cplx.zero)
        (st.set i p.1).set j p.2
      else st)
    state

/-- `SimulatorBackend::apply_h`.  `1.0 / 2.0_f64.sqrt()` is taken through
the abstract `sqrt`. -/
def apply_h (ops : RealOps) (state : List Cplx) (q n : ℕ) : List Cplx :=
  let sqrt2_inv := 1 / ops.sqrt 2
  apply_single_qubit_gate state q n fun a b =>
    ((a.add b).smul sqrt2_inv, (a.sub b).smul sqrt2_inv)

/-- `SimulatorBackend::apply_x`. -/
def apply_x (state : List Cplx) (q n : ℕ) : List Cplx :=
  apply_single_qubit_gate state q n fun a b => (b, a)

/-- `SimulatorBackend::apply_y`. -/
def apply_y (state : List Cplx) (q n : ℕ) : List Cplx :=
  apply_single_qubit_gate state q n fun a b =>
    (b.mul (Cplx.mk2 0 (-1)), a.mul (Cplx.mk2 0 1))

/-- `SimulatorBackend::apply_z`. -/
def apply_z (state : List Cplx) (q n : ℕ) : List Cplx :=
  apply_single_qubit_gate state q n fun a b => (a, b.smul (-1))

/-- `SimulatorBackend::apply_s`. -/
def apply_s (state : List Cplx) (q n : ℕ) : List Cplx :=
  apply_single_qubit_gate state q n fun a b => (a, b.mul (Cplx.mk2 0 1))

/-- `SimulatorBackend::apply_sdg`. -/
def apply_sdg (state : List Cplx) (q n : ℕ) : List Cplx :=
  apply_single_qubit_gate state q n fun a b => (a, b.mul (Cplx.mk2 0 (-1)))

/-- `SimulatorBackend::apply_t` (`PI/4` phase through the abstract trig). -/
def apply_t (ops : RealOps) (pi : ℚ) (state : List Cplx) (q n : ℕ) : List Cplx :=
  let phase := Cplx.from_polar ops 1 (pi / 4)
  apply_single_qubit_gate state q n fun a b => (a, b.mul phase)

/-- `SimulatorBackend::apply_tdg`. -/
def apply_tdg (ops : RealOps) (pi : ℚ) (state : List Cplx) (q n : ℕ) : List Cplx :=
  let phase := Cplx.from_polar ops 1 (-(pi / 4))
  apply_single_qubit_gate state q n fun a b => (a, b.mul phase)

/-- `SimulatorBackend::apply_rx`. -/
def apply_rx (ops : RealOps) (state : List Cplx) (q : ℕ) (angle : ℚ) (n : ℕ) :
    List Cplx :=
  let c := ops.cos (angle / 2)
  let s := ops.sin (angle / 2)
  apply_single_qubit_gate state q n fun a b =>
    ((a.smul c).add (b.mul (Cplx.mk2 0 (-s))), (a.mul (Cplx.mk2 0 (-s))).add (b.smul c))

/-- `SimulatorBackend::apply_ry`. -/
def apply_ry (ops : RealOps) (state : List Cplx) (q : ℕ) (angle : ℚ) (n : ℕ) :
    List Cplx :=
  let c := ops.cos (angle / 2)
  let s := ops.sin (angle / 2)
  apply_single_qubit_gate state q n fun a b =>
    ((a.smul c).sub (b.smul s), (a.smul s).add (b.smul c))

/-- `SimulatorBackend::apply_rz`. -/
def apply_rz (ops : RealOps) (state : List Cplx) (q : ℕ) (angle : ℚ) (n : ℕ) :
    List Cplx :=
  let phase_neg := Cplx.from_polar ops 1 (-(angle / 2))
  let phase_pos := Cplx.from_polar ops 1 (angle / 2)
  apply_single_qubit_gate state q n fun a b => (a.mul phase_neg, b.mul phase_pos)

/-- `SimulatorBackend::apply_cnot`: swap the amplitudes of each index pair
with the control bit set and the target bit differing. -/
def apply_cnot (state : List Cplx) (control target n : ℕ) : List Cplx :=
  let control_mask := 2 ^ control
  let target_mask := 2 ^ target
  (List.range (2 ^ n)).foldl
    (fun st i =>
      if i &&& control_mask ≠ 0 ∧ i &&& target_mask = 0 then
        let j := i ||| target_mask
        (st.set i (st.getD j Cplx.zero)).set j (st.getD i Cplx.zero)
      else st)
    state

/-- `SimulatorBackend::apply_cz`. -/
def apply_cz (state : List Cplx) (q1 q2 n : ℕ) : List Cplx :=
  let mask1 := 2 ^ q1
  let mask2 := 2 ^ q2
  (List.range (2 ^ n)).foldl
    (fun st i =>
      if i &&& mask1 ≠ 0 ∧ i &&& mask2 ≠ 0 then
        st.set i ((st.getD i Cplx.zero).smul (-1))
      else st)
    state

/-- `SimulatorBackend::apply_swap`. -/
def apply_swap (state : List Cplx) (q1 q2 n : ℕ) : List Cplx :=
  let mask1 := 2 ^ q1
  let mask2 := 2 ^ q2
  (List.range (2 ^ n)).foldl
    (fun st i =>
      if (i &&& mask1 ≠ 0) ≠ (i &&& mask2 ≠ 0) then
        let j := (i ^^^ mask1) ^^^ mask2
        if i < j then
          (st.set i (st.getD j Cplx.zero)).set j (st.getD i Cplx.zero)
        else st
      else st)
    state

/-- The per-gate error rate looked up in `apply_gate`: the two-qubit rate
for two-qubit gates, the single-qubit rate for single-qubit gates, and `0`
otherwise. -/
def error_rate (noise_model : NoiseModel) (gate : Gate) : ℚ :=
  if gate.is_two_qubit then noise_model.gate_error_2q
  else if gate.is_single_qubit then noise_model.gate_error_1q
  else 0

/-- The ideal part of `apply_gate` (the `match gate` at its end): barriers,
measurements and the gates without a kernel leave the state unchanged. -/
def apply_ideal (ops : RealOps) (pi : ℚ) (state : List Cplx) (gate : Gate)
    (n : ℕ) : List Cplx :=
  match gate with
  | Gate.H q => apply_h ops state q n
  | Gate.X q => apply_x state q n
  | Gate.Y q => apply_y state q n
  | Gate.Z q => apply_z state q n
  | Gate.S q => apply_s state q n
  | Gate.Sdg q => apply_sdg state q n
  | Gate.T q => apply_t ops pi state q n
  | Gate.Tdg q => apply_tdg ops pi state q n
  | Gate.Rx q angle => apply_rx ops state q angle n
  | Gate.Ry q angle => apply_ry ops state q angle n
  | Gate.Rz q angle => apply_rz ops state q angle n
  | Gate.Cnot c t => apply_cnot state c t n
  | Gate.Cz c t => apply_cz state c t n
  | Gate.Swap q1 q2 => apply_swap state q1 q2 n
  | _ => state

/-- `SimulatorBackend::apply_random_error`: one `gen_range(0..3)` draw picks
X, Y or Z, applied to the first qubit of the gate. -/
def apply_random_error {σ : Type} (R : RngModel σ) (state : List Cplx)
    (gate : Gate) (n : ℕ) (rng : σ) : List Cplx × σ :=
  match gate.qubits with
  | [] => (state, rng)
  | q :: _ =>
    let d := R.gen_range3 rng
    (match d.1 with
     | 0 => apply_x state q n
     | 1 => apply_y state q n
     | _ => apply_z state q n, d.2)

/-- `SimulatorBackend::apply_gate`: when the error rate is positive, one
uniform draw decides between the random-Pauli substitution and the ideal
gate; when it is zero the `&&` short-circuits and no draw is made. -/
def apply_gate {σ : Type} (R : RngModel σ) (noise_model : NoiseModel)
    (ops : RealOps) (pi : ℚ) (state : List Cplx) (gate : Gate) (n : ℕ)
    (rng : σ) : List Cplx × σ :=
  let er := error_rate noise_model gate
  if er > 0 then
    let d := R.gen_f64 rng
    if d.1 < er then apply_random_error R state gate n d.2
    else (apply_ideal ops pi state gate n, d.2)
  else (apply_ideal ops pi state gate n, rng)

/-- The sampling loop of `measure_state`: walk the cumulative probability
sum and stop at the first index whose cumulative sum exceeds the draw. -/
def sample_go (r : ℚ) : ℚ → ℕ → List ℚ → Option ℕ
  | _, _, [] => none
  | cumsum, i, p :: rest =>
    if r < cumsum + p then some i else sample_go r (cumsum + p) (i + 1) rest

/-- Outcome selection of `measure_state` (defaults to the last index when
the loop never breaks). -/
def sample_outcome (probs : List ℚ) (r : ℚ) : ℕ :=
  (sample_go r 0 0 probs).getD (probs.length - 1)

/-- MSB-first bitstring of width `n`, i.e. `format!("{:0width$b}", x)`. -/
def nat_to_bits (n x : ℕ) : Bitstring :=
  (List.range n).map fun i => x.testBit (n - 1 - i)

/-- `SimulatorBackend::measure_state`: sample an outcome by cumulative
inversion of `|amplitude|²`, then flip each of the `n` output bits
independently with probability `readout_error` (no draws when the readout
error is zero). -/
def measure_state {σ : Type} (R : RngModel σ) (noise_model : NoiseModel)
    (state : List Cplx) (n : ℕ) (rng : σ) : Bitstring × σ :=
  let probs := state.map Cplx.norm_squared
  let d := R.gen_f64 rng
  let outcome := sample_outcome probs d.1
  let rr :=
    if noise_model.readout_error > 0 then
      (List.range n).foldl
        (fun (acc : ℕ × σ) bit =>
          let d2 := R.gen_f64 acc.2
          if d2.1 < noise_model.readout_error then (acc.1 ^^^ 2 ^ bit, d2.2)
          else (acc.1, d2.2))
        (outcome, d.2)
    else (outcome, d.2)
  (nat_to_bits n rr.1, rr.2)

/-- `SimulatorBackend::simulate_single_shot`. -/
def simulate_single_shot {σ : Type} (R : RngModel σ) (noise_model : NoiseModel)
    (ops : RealOps) (pi : ℚ) (circuit : Circuit) (rng : σ) : Bitstring × σ :=
  let n := circuit.num_qubits
  let state0 := (List.replicate (2 ^ n) Cplx.zero).set 0 Cplx.one
  let r := circuit.gates.foldl
    (fun (acc : List Cplx × σ) gate => apply_gate R noise_model ops pi acc.1 gate n acc.2)
    (state0, rng)
  measure_state R noise_model r.1 n r.2

/-- `counts.entry(bitstring).or_insert(0) += 1` over the association list. -/
def counts_insert : Counts → Bitstring → Counts
  | [], k => [(k, 1)]
  | (k0, c) :: rest, k =>
    if k0 = k then (k0, c + 1) :: rest else (k0, c) :: counts_insert rest k

/-- `SimulatorBackend::simulate`: one shot at a time, accumulating counts. -/
def simulate {σ : Type} (R : RngModel σ) (noise_model : NoiseModel)
    (ops : RealOps) (pi : ℚ) (circuit : Circuit) (shots : ℕ) (rng : σ) :
    Counts × σ :=
  (List.range shots).foldl
    (fun (acc : Counts × σ) _ =>
      let r := simulate_single_shot R noise_model ops pi circuit acc.2
      (counts_insert acc.1 r.1, r.2))
    ([], rng)

end SimulatorBackend

/-- `niso_backend::execution::ExecutionMetadata` (the fields `execute`
fills). -/
structure ExecutionMetadata where
  backend : String
  simulated : Bool
  seed : Option ℕ
  deriving DecidableEq

/-- `niso_backend::execution::ExecutionResult`. -/
structure ExecutionResult where
  counts : Counts
  shots : ℕ
  metadata : ExecutionMetadata
  deriving DecidableEq

/-- `niso_backend::simulator::SimulatorBackend` (the calibration field is
orthogonal to all claims and omitted). -/
structure SimulatorBackend where
  name : String
  num_qubits : ℕ
  noise_model : NoiseModel
  seed : Option ℕ

namespace SimulatorBackend

/-- `Backend::execute` for the simulator: reject circuits wider than the
backend, seed the generator (`from_entropy` for an unseeded backend is a
fresh nondeterministic state, passed in as `entropy`), simulate, and wrap
the result. -/
def execute {σ : Type} (R : RngModel σ) (ops : RealOps) (pi : ℚ)
    (b : SimulatorBackend) (circuit : Circuit) (shots : ℕ) (entropy : σ) :
    Except NisoError ExecutionResult :=
  if circuit.num_qubits > b.num_qubits then
    Except.error (NisoError.QubitOutOfRange circuit.num_qubits b.num_qubits)
  else
    let rng :=
      match b.seed with
      | some seed => R.seed_from_u64 seed
      | none => entropy
    let r := simulate R b.noise_model ops pi circuit shots rng
    Except.ok
      { counts := r.1
        shots := shots
        metadata := { backend := b.name, simulated := true, seed := b.seed } }

end SimulatorBackend

/-! ## `niso_tqqc::engine`

The engine is generic over the execution backend (`TqqcEngine<B: Backend>`);
`measure_parity` builds the parity circuit, executes it and reduces the
counts to a parity expectation.  The embedding abstracts that whole
composite as an oracle `ℚ → ℚ → ℚ` mapping `(theta, delta)` to the measured
parity, so the theorems quantify over every backend and every (successful)
measurement behaviour.  The engine's own `StdRng` (used only for random tie
breaking) is modelled as a stream `ℕ → ℚ` of `gen::<f64>()` draws together
with a cursor threaded through the state. -/

/-- `niso_tqqc::config::TqqcConfig` (the fields `optimize` reads; `basis`,
`entangler` and `seed` only feed circuit construction and generator
seeding, which the oracle and the explicit draw stream replace). -/
structure TqqcConfig where
  qubits : ℕ
  points : ℕ
  shots : ℕ
  noise : ℚ
  step_amp : ℚ
  inner_max : ℕ
  dynamic_inner : Bool
  use_statistical_test : Bool
  sig_mode : SigMode
  sig_level : ℚ
  delta_mode : DeltaMode
  theta_init : ℚ
  delta_init : ℚ

/-- `niso_tqqc::engine::IterationRecord`. -/
structure IterationRecord where
  iteration : ℕ
  delta : ℚ
  parity_plus : ℚ
  parity_minus : ℚ
  parity_selected : ℚ
  improvement : ℚ
  inner_count : ℕ
  direction : Option Direction
  is_significant : Bool

/-- `niso_tqqc::engine::TqqcResult`. -/
structure TqqcResult where
  delta_opt : ℚ
  parity_baseline : ℚ
  parity_final : ℚ
  improvement : ℚ
  iterations : ℕ
  early_stopped : Bool
  ties_count : ℕ
  significant_moves : ℕ
  total_inner_iterations : ℕ
  history : List IterationRecord

namespace TqqcEngine

/-- The tuple `(candidate_delta, candidate_parity, direction, is_significant)`
returned by `select_direction` and by the no-test branch. -/
structure Candidate where
  candidate_delta : ℚ
  candidate_parity : ℚ
  direction : Option Direction
  chosen_significant : Bool

/-- `TqqcEngine::select_direction`: random direction on a tie (one
`gen::<f64>()` draw), follow the tested direction when significant,
otherwise stay. -/
def select_direction (rng : ℕ → ℚ) (rng_ix : ℕ) (delta step parity_plus
    parity_minus parity_current : ℚ) (tr : TestResult) : Candidate × ℕ :=
  if tr.is_tie then
    (if rng rng_ix > 1 / 2 then
      ⟨delta + step, parity_plus, some Direction.Plus, false⟩
     else ⟨delta - step, parity_minus, some Direction.Minus, false⟩, rng_ix + 1)
  else if tr.is_significant then
    (match tr.direction with
     | some Direction.Plus => ⟨delta + step, parity_plus, some Direction.Plus, true⟩
     | some Direction.Minus => ⟨delta - step, parity_minus, some Direction.Minus, true⟩
     | _ => ⟨delta, parity_current, some Direction.Stay, true⟩, rng_ix)
  else (⟨delta, parity_current, some Direction.Stay, false⟩, rng_ix)

/-- The mutable locals of one outer iteration's inner loop. -/
structure InnerState where
  best_delta : ℚ
  best_parity : ℚ
  record_parity_plus : ℚ
  record_parity_minus : ℚ
  record_direction : Option Direction
  record_significant : Bool
  significant_moves : ℕ
  rng_ix : ℕ

/-- The body of the inner `for j in 0..inner_count` loop. -/
def inner_step (cfg : TqqcConfig) (di : DynamicInner) (st : StatisticalTest)
    (oracle : ℚ → ℚ → ℚ) (rng : ℕ → ℚ) (delta parity_current : ℚ)
    (s : InnerState) (j : ℕ) : InnerState :=
  let step_j := di.compute_step j cfg.step_amp
  let parity_plus := oracle cfg.theta_init (delta + step_j)
  let parity_minus := oracle cfg.theta_init (delta - step_j)
  let s :=
    if j = 0 then
      { s with record_parity_plus := parity_plus, record_parity_minus := parity_minus }
    else s
  let cr : Candidate × ℕ :=
    if cfg.use_statistical_test then
      let tr := st.test parity_plus parity_minus cfg.shots cfg.noise
      select_direction rng s.rng_ix delta step_j parity_plus parity_minus
        parity_current tr
    else if parity_plus > parity_minus then
      (⟨delta + step_j, parity_plus, some Direction.Plus, true⟩, s.rng_ix)
    else (⟨delta - step_j, parity_minus, some Direction.Minus, true⟩, s.rng_ix)
  let s :=
    if cfg.use_statistical_test ∧
        (st.test parity_plus parity_minus cfg.shots cfg.noise).is_significant then
      { s with significant_moves := s.significant_moves + 1, record_significant := true }
    else s
  let s := { s with rng_ix := cr.2 }
  let s := if j = 0 then { s with record_direction := cr.1.direction } else s
  if cr.1.candidate_parity > s.best_parity then
    { s with best_delta := cr.1.candidate_delta, best_parity := cr.1.candidate_parity }
  else s

/-- The mutable locals of the outer loop of `optimize`. -/
structure OuterState where
  delta : ℚ
  last_improve : ℚ
  total_inner : ℕ
  parity_current : ℚ
  early_stopped : Bool
  ties_count : ℕ
  significant_moves : ℕ
  history : List IterationRecord
  convergence : Convergence
  rng_ix : ℕ

/-- One outer iteration of `optimize` (everything between the head of the
`for iteration` loop and the convergence break test). -/
def outer_iter (cfg : TqqcConfig) (di : DynamicInner) (st : StatisticalTest)
    (oracle : ℚ → ℚ → ℚ) (rng : ℕ → ℚ) (iteration : ℕ) (s : OuterState) :
    OuterState :=
  let inner_count :=
    if cfg.dynamic_inner then di.compute_count s.last_improve s.convergence.threshold_abs
    else 1
  let is0 : InnerState :=
    { best_delta := s.delta
      best_parity := s.parity_current
      record_parity_plus := 0
      record_parity_minus := 0
      record_direction := none
      record_significant := false
      significant_moves := s.significant_moves
      rng_ix := s.rng_ix }
  let isF := (List.range inner_count).foldl
    (inner_step cfg di st oracle rng s.delta s.parity_current) is0
  let improvement := isF.best_parity - s.parity_current
  let delta2 :=
    match cfg.delta_mode with
    | DeltaMode.Track => isF.best_delta
    | DeltaMode.Reset => isF.best_delta - s.delta
  { delta := delta2
    last_improve := improvement
    total_inner := s.total_inner + inner_count
    parity_current := isF.best_parity
    early_stopped := s.early_stopped
    ties_count :=
      if |isF.record_parity_plus - isF.record_parity_minus| < 1 / 10 ^ 9 then
        s.ties_count + 1
      else s.ties_count
    significant_moves := isF.significant_moves
    history := s.history ++
      [{ iteration := iteration
         delta := delta2
         parity_plus := isF.record_parity_plus
         parity_minus := isF.record_parity_minus
         parity_selected := isF.best_parity
         improvement := improvement
         inner_count := inner_count
         direction := isF.record_direction
         is_significant := isF.record_significant }]
    convergence := s.convergence.push improvement
    rng_ix := isF.rng_ix }

/-- The `for iteration in 0..points` loop with its early-stop break:
structural recursion on the remaining iteration count. -/
def outer_loop (cfg : TqqcConfig) (di : DynamicInner) (st : StatisticalTest)
    (oracle : ℚ → ℚ → ℚ) (rng : ℕ → ℚ) :
    ℕ → ℕ → OuterState → OuterState
  | 0, _, s => s
  | fuel + 1, iteration, s =>
    let s2 := outer_iter cfg di st oracle rng iteration s
    if cfg.dynamic_inner && s2.convergence.check then { s2 with early_stopped := true }
    else outer_loop cfg di st oracle rng fuel (iteration + 1) s2

/-- `TqqcEngine::optimize` (the components are built as in
`TqqcEngine::new`: `Convergence::from_noise`, `DynamicInner::new(inner_max,
0.9)`, `StatisticalTest::new(sig_mode, sig_level)`). -/
def optimize (cfg : TqqcConfig) (oracle : ℚ → ℚ → ℚ) (rng : ℕ → ℚ) : TqqcResult :=
  let di := DynamicInner.new cfg.inner_max (9 / 10)
  let st : StatisticalTest := ⟨cfg.sig_mode, cfg.sig_level⟩
  let parity_baseline := oracle cfg.theta_init 0
  let s0 : OuterState :=
    { delta := cfg.delta_init
      last_improve := 0
      total_inner := 0
      parity_current := parity_baseline
      early_stopped := false
      ties_count := 0
      significant_moves := 0
      history := []
      convergence := Convergence.from_noise cfg.qubits cfg.noise
      rng_ix := 0 }
  let sF := outer_loop cfg di st oracle rng cfg.points 0 s0
  { delta_opt := sF.delta
    parity_baseline := parity_baseline
    parity_final := sF.parity_current
    improvement := sF.parity_current - parity_baseline
    iterations := sF.history.length
    early_stopped := sF.early_stopped
    ties_count := sF.ties_count
    significant_moves := sF.significant_moves
    total_inner_iterations := sF.total_inner
    history := sF.history }

end TqqcEngine

/-! ## Spec-side definitions and concrete instances used by the theorems -/

/-- The improvements pushed into the convergence controller during a run,
read back from the per-iteration history. -/
def TqqcResult.improvements (r : TqqcResult) : List ℚ :=
  r.history.map IterationRecord.improvement

/-- Replay of the convergence controller: the result of pushing the first
`k` improvements into a fresh controller (the controller the engine builds,
`Convergence::from_noise`) and asking `check`.  `Convergence.push` only
depends on the pushed values, so this reproduces the controller state the
engine holds after its `k`-th push. -/
def check_after (cfg : TqqcConfig) (imps : List ℚ) (k : ℕ) : Bool :=
  ((imps.take k).foldl Convergence.push
    (Convergence.from_noise cfg.qubits cfg.noise)).check

/-- The early-stop characterization proved about the outer loop (claim
C1): if the run stopped early, the convergence check (replayed over the
recorded improvements) holds right after the final push and after no
earlier push; if it did not, the loop ran `bound` iterations and the
check held after no push. -/
def loop_conclusion (cfg : TqqcConfig) (bound : ℕ) (sF : TqqcEngine.OuterState) : Prop :=
  (sF.early_stopped = true →
    sF.history.length ≤ bound ∧
    check_after cfg (sF.history.map IterationRecord.improvement)
      sF.history.length = true ∧
    ∀ k < sF.history.length,
      check_after cfg (sF.history.map IterationRecord.improvement) k = false) ∧
  (sF.early_stopped = false →
    sF.history.length = bound ∧
    ∀ k ≤ bound,
      check_after cfg (sF.history.map IterationRecord.improvement) k = false)

/-- A configuration with the dynamic inner loop disabled (used to refute
the unconditional early-stop reading of the spec). -/
def cfg_no_dynamic : TqqcConfig :=
  { qubits := 5, points := 5, shots := 100, noise := 1 / 100, step_amp := 12 / 100
    inner_max := 10, dynamic_inner := false, use_statistical_test := false
    sig_mode := SigMode.Fixed, sig_level := 95 / 100, delta_mode := DeltaMode.Track
    theta_init := 0, delta_init := 0 }

/-- The same configuration with the dynamic inner loop enabled and 4 outer
points. -/
def cfg_dynamic : TqqcConfig :=
  { cfg_no_dynamic with dynamic_inner := true, points := 4 }

/-- Dynamic inner loop enabled with exactly 3 outer points: the earliest
possible early stop then falls on the final iteration. -/
def cfg_dynamic3 : TqqcConfig :=
  { cfg_no_dynamic with dynamic_inner := true, points := 3 }

/-- A backend oracle whose measured parity is always zero. -/
def zero_oracle : ℚ → ℚ → ℚ := fun _ _ => 0

/-- A draw stream that always returns zero. -/
def zero_stream : ℕ → ℚ := fun _ => 0

/-- Spec-side restatement of the critical-value selection (claim C2 as
amended): the adjusted level is written as one arithmetic expression and
the quantile mapping is `≥0.99 → 2.575`, `≥0.975 → 2.24` (adaptive only),
`≥0.95 → 1.96`, else `1.645`. -/
def spec_z_critical (mode : SigMode) (level : ℚ) (shots : ℕ) (noise : ℚ) : ℚ :=
  match mode with
  | SigMode.Fixed =>
    if level ≥ 99 / 100 then 2575 / 1000
    else if level ≥ 95 / 100 then 1960 / 1000
    else 1645 / 1000
  | SigMode.Adaptive =>
    let adjusted := level + (if noise > 2 / 100 then 25 / 1000 else 0)
      + (if shots < 4096 then 25 / 1000 else 0)
      - (if shots ≥ 16384 then 5 / 100 else 0)
    StatisticalTest.adaptive_quantile (max (90 / 100) (min adjusted (99 / 100)))

/-- The invariant of claim C10: every stored gate only touches qubit
indices below the circuit's qubit count. -/
def Circuit.valid (c : Circuit) : Prop :=
  ∀ g ∈ c.gates, ∀ q ∈ g.qubits, q < c.num_qubits

/-- Circuit values reachable through the public construction surface:
`Circuit::new`, successful `Circuit::add_gate` / `Circuit::from_gates`,
`Circuit::clear`, and the builder methods (every builder method is a
sequence of `add_ignored` steps on the underlying circuit). -/
inductive ReachableCircuit : Circuit → Prop
  | new (n : ℕ) : ReachableCircuit (Circuit.new n)
  | add_gate_ok {c c2 : Circuit} {g : Gate} :
      ReachableCircuit c → c.add_gate g = Except.ok c2 → ReachableCircuit c2
  | from_gates_ok {n : ℕ} {gs : List Gate} {c : Circuit} :
      Circuit.from_gates n gs = Except.ok c → ReachableCircuit c
  | builder_step {c : Circuit} (g : Gate) :
      ReachableCircuit c →
      ReachableCircuit (CircuitBuilder.add_ignored ⟨c⟩ g).circuit
  | clear {c : Circuit} : ReachableCircuit c → ReachableCircuit c.clear

namespace SchedSpec

/-- Claim C9, start rule: the maximum availability time over the gate's
qubits (availability is a total function, `0` for a qubit no gate has
touched yet), or over all qubits of the machine for zero-qubit operations. -/
def avail_start (avail : QubitId → ℚ) (num_qubits : ℕ) (g : Gate) : ℚ :=
  if g.qubits.isEmpty then ((List.range num_qubits).map avail).foldl max 0
  else (g.qubits.map avail).foldl max 0

/-- Claim C9, update rule: every touched qubit (every machine qubit, for
zero-qubit operations) advances to the end time. -/
def avail_next (avail : QubitId → ℚ) (num_qubits : ℕ) (g : Gate) (end_time : ℚ) :
    QubitId → ℚ := fun q =>
  if g.qubits.isEmpty then (if q < num_qubits then end_time else avail q)
  else if q ∈ g.qubits then end_time else avail q

/-- Claim C9, processed gate by gate in sequence order: the list of
`(start, end)` times, with `end = start + duration`. -/
def times (gt : GateTimes) (num_qubits : ℕ) : (QubitId → ℚ) → List Gate → List (ℚ × ℚ)
  | _, [] => []
  | avail, g :: rest =>
    let start := avail_start avail num_qubits g
    let e := start + gt.gate_duration g
    (start, e) :: times gt num_qubits (avail_next avail num_qubits g e) rest

end SchedSpec

namespace SimulatorBackend

/-- The Pauli choice of `apply_random_error` as a function of the
`gen_range(0..3)` draw: `0 → X`, `1 → Y`, otherwise `Z`. -/
def pauli_pick (k : ℕ) (state : List Cplx) (q n : ℕ) : List Cplx :=
  match k with
  | 0 => apply_x state q n
  | 1 => apply_y state q n
  | _ => apply_z state q n

end SimulatorBackend

/-- A noise model with a large single-qubit error rate, used to
instantiate the noisy branch of `apply_gate` concretely. -/
def noisy_model : NoiseModel :=
  { t1_us := 100, t2_us := 60, gate_error_1q := 3 / 4, gate_error_2q := 3 / 4
    readout_error := 0 }

/-- A 1-qubit backend with a fixed seed (witness instance for the
determinism claim). -/
def seeded_backend (name : String) : SimulatorBackend :=
  { name := name, num_qubits := 1, noise_model := NoiseModel.ideal, seed := some 7 }

/-- A 1-qubit circuit holding a single X gate. -/
def x_circuit : Circuit := ⟨1, [Gate.X 0]⟩

/-- A 2-qubit circuit used as a concrete scheduling witness. -/
def sched_circuit : Circuit := ⟨2, [Gate.H 0, Gate.H 1, Gate.Cnot 0 1, Gate.MeasureAll]⟩

/-- A concrete duration table with no overrides (H/X/… 35 ns, two-qubit
300 ns, measurement 5000 ns). -/
def sched_times : GateTimes :=
  { single_qubit_ns := 35, two_qubit_ns := 300, measurement_ns := 5000
    gate_overrides := fun _ => none }

/-! ## Theorems -/

/-- Helper: `((n - 1 : ℕ) : ℚ) = (n : ℚ) - 1` for positive `n`. -/
theorem cast_pred_eq (n : ℕ) (h : 1 ≤ n) : ((n - 1 : ℕ) : ℚ) = (n : ℚ) - 1 := by
  push_cast [Nat.cast_sub h]
  ring

/-- C5: for every qubit count `N ≥ 2` the depth-corrected threshold scales
by `D(5)/D(N)` with `D(k) = k - 1`, both for the constants-module
`threshold_for_qubits` and for the `Convergence` constructor's absolute
threshold; and the two concrete values from the spec hold exactly. -/
theorem claim_C5_threshold (N : ℕ) (h : 2 ≤ N) (b : ℚ) :
    tqqc.threshold_for_qubits N =
      tqqc.threshold_for_qubits 5 * (((5 : ℚ) - 1) / ((N : ℚ) - 1)) ∧
    (Convergence.new N b).threshold_abs =
      (Convergence.new 5 b).threshold_abs * (((5 : ℚ) - 1) / ((N : ℚ) - 1)) ∧
    tqqc.threshold_for_qubits 5 = 30 / 1000 ∧
    tqqc.threshold_for_qubits 7 = 30 / 1000 * (4 / 6) := by
  have h1 : 1 ≤ N := le_trans (by norm_num) h
  have hc : ((N - 1 : ℕ) : ℚ) = (N : ℚ) - 1 := cast_pred_eq N h1
  have hpos : (0 : ℚ) < (N : ℚ) - 1 := by
    have : (2 : ℚ) ≤ (N : ℚ) := by exact_mod_cast h
    linarith
  have hne : ((N : ℚ) - 1) ≠ 0 := ne_of_gt hpos
  have hN0 : 0 < N := lt_of_lt_of_le (by norm_num) h
  have hdf : tqqc.depth_factor N = ((N : ℚ) - 1) / 4 := by
    simp only [tqqc.depth_factor, tqqc.circuit_depth, if_pos hN0, hc]
    norm_num
  have hthr : tqqc.threshold_for_qubits N = (3 / 100) / (((N : ℚ) - 1) / 4) := by
    simp only [tqqc.threshold_for_qubits, hdf, tqqc.THRESHOLD_5Q]
    rw [if_pos (div_pos hpos (by norm_num))]
    norm_num
  have e5 : tqqc.threshold_for_qubits 5 = 3 / 100 := by
    norm_num [tqqc.threshold_for_qubits, tqqc.depth_factor, tqqc.circuit_depth,
      tqqc.THRESHOLD_5Q]
  have e7 : tqqc.threshold_for_qubits 7 = 1 / 50 := by
    norm_num [tqqc.threshold_for_qubits, tqqc.depth_factor, tqqc.circuit_depth,
      tqqc.THRESHOLD_5Q]
  refine ⟨?_, ?_, by rw [e5]; norm_num, by rw [e7]; norm_num⟩
  · rw [hthr, e5]
    field_simp
    ring
  · have hdc : Convergence.depth_correction N 5 b = b * (4 / ((N : ℚ) - 1)) := by
      simp only [Convergence.depth_correction, hc]
      split_ifs with hcond
      · norm_num
      · exact absurd ⟨hpos, by norm_num⟩ hcond
    have hdc5 : Convergence.depth_correction 5 5 b = b := by
      simp only [Convergence.depth_correction]
      split_ifs with hcond
      · norm_num
      · exact absurd ⟨by norm_num, by norm_num⟩ hcond
    simp only [Convergence.new, hdc, hdc5]
    norm_num

/-- C5 witness at `N = 7`. -/
theorem claim_C5_witness :
    2 ≤ 7 ∧
    (tqqc.threshold_for_qubits 7 =
      tqqc.threshold_for_qubits 5 * (((5 : ℚ) - 1) / ((7 : ℚ) - 1)) ∧
    (Convergence.new 7 (30 / 1000)).threshold_abs =
      (Convergence.new 5 (30 / 1000)).threshold_abs * (((5 : ℚ) - 1) / ((7 : ℚ) - 1)) ∧
    tqqc.threshold_for_qubits 5 = 30 / 1000 ∧
    tqqc.threshold_for_qubits 7 = 30 / 1000 * (4 / 6)) :=
  ⟨by norm_num, claim_C5_threshold 7 (by norm_num) (30 / 1000)⟩

/-- C4 as amended: `compute_count` clamps
`1 + 2·⌊|g| / max(threshold, 1e-9)⌋` by the safety cap 5 and by
`inner_max` (the lower clamp at 1 is inert because the raw value is at
least 1); the spec's concrete values hold. -/
theorem claim_C4_compute_count (im : ℕ) (dr g t : ℚ) :
    (DynamicInner.new im dr).compute_count g t =
      min (min (1 + 2 * Nat.floor (|g| / max t (1 / 10 ^ 9))) 5) im ∧
    (DynamicInner.new 10 (9 / 10)).compute_count (4 / 100) (2 / 100) = 5 ∧
    (DynamicInner.new 10 (9 / 10)).compute_count (2 / 10) (2 / 100) = 5 ∧
    (DynamicInner.new 3 (9 / 10)).compute_count (2 / 10) (2 / 100) = 3 := by
  have key : ∀ (im2 : ℕ) (dr2 g2 t2 : ℚ),
      (DynamicInner.new im2 dr2).compute_count g2 t2 =
        min (min (1 + 2 * Nat.floor (|g2| / max t2 (1 / 10 ^ 9))) 5) im2 := by
    intro im2 dr2 g2 t2
    simp only [DynamicInner.compute_count, DynamicInner.new]
    omega
  refine ⟨key im dr g t, ?_, ?_, ?_⟩
  · rw [key]
    have hm : max (2 / 100 : ℚ) (1 / 10 ^ 9) = 2 / 100 := max_eq_left (by norm_num)
    have hq : |(4 / 100 : ℚ)| / (2 / 100) = 2 := by
      rw [abs_of_pos (by norm_num)]
      norm_num
    rw [hm, hq]
    norm_num
  · rw [key]
    have hm : max (2 / 100 : ℚ) (1 / 10 ^ 9) = 2 / 100 := max_eq_left (by norm_num)
    have hq : |(2 / 10 : ℚ)| / (2 / 100) = 10 := by
      rw [abs_of_pos (by norm_num)]
      norm_num
    rw [hm, hq]
    norm_num
  · rw [key]
    have hm : max (2 / 100 : ℚ) (1 / 10 ^ 9) = 2 / 100 := max_eq_left (by norm_num)
    have hq : |(2 / 10 : ℚ)| / (2 / 100) = 10 := by
      rw [abs_of_pos (by norm_num)]
      norm_num
    rw [hm, hq]
    norm_num

/-- C4 counterexample: at `g = 1e-9` and the positive threshold
`t = 4e-10`, the code floors the threshold at `1e-9` and returns 3, while
the claim's formula `clamp(1, inner_max, 1 + 2⌊|g|/t⌋)` capped at 5 gives
5. -/
theorem claim_C4_counterexample :
    (DynamicInner.new 10 (9 / 10)).compute_count (1 / 10 ^ 9) (4 / 10 ^ 10) = 3 ∧
    min (max 1 (min (1 + 2 * Nat.floor (|(1 / 10 ^ 9 : ℚ)| / (4 / 10 ^ 10))) 10)) 5
      = 5 := by
  have habs : |(1 / 10 ^ 9 : ℚ)| = 1 / 10 ^ 9 := abs_of_pos (by norm_num)
  constructor
  · have hm : max (4 / 10 ^ 10 : ℚ) (1 / 10 ^ 9) = 1 / 10 ^ 9 := max_eq_right (by norm_num)
    simp only [DynamicInner.compute_count, DynamicInner.new, hm, habs]
    have hq : (1 / 10 ^ 9 : ℚ) / (1 / 10 ^ 9) = 1 := by norm_num
    rw [hq]
    norm_num
  · have hq : (1 / 10 ^ 9 : ℚ) / (4 / 10 ^ 10) = 5 / 2 := by norm_num
    rw [habs, hq]
    have hf : Nat.floor (5 / 2 : ℚ) = 2 := by
      rw [Nat.floor_eq_iff (by norm_num)]
      norm_num
    rw [hf]
    decide

/-- C2 counterexample: in adaptive mode at level 0.95, noise 0.03 and 8192
shots the adjusted level is 0.975 and the returned critical value is 2.24,
which is none of 1.645, 1.96, 2.575. -/
theorem claim_C2_counterexample :
    (StatisticalTest.adaptive (95 / 100)).z_critical 8192 (3 / 100) = 224 / 100 ∧
    ¬((224 / 100 : ℚ) = 1645 / 1000 ∨ (224 / 100 : ℚ) = 1960 / 1000 ∨
      (224 / 100 : ℚ) = 2575 / 1000) := by
  constructor
  · norm_num [StatisticalTest.adaptive, StatisticalTest.z_critical,
      StatisticalTest.adaptive_critical, StatisticalTest.adaptive_quantile,
      stats.Z_CRIT_99, stats.Z_CRIT_95, stats.Z_CRIT_90, max_def, min_def]
  · norm_num

/-- Helper for C2: the sequentially adjusted level of `adaptive_critical`
equals the one-expression form of the spec restatement. -/
theorem adaptive_adjust_eq (level noise : ℚ) (shots : ℕ) :
    (if shots ≥ 16384 then
        (if shots < 4096 then
            (if noise > 2 / 100 then level + 25 / 1000 else level) + 25 / 1000
          else if noise > 2 / 100 then level + 25 / 1000 else level) - 5 / 100
      else if shots < 4096 then
          (if noise > 2 / 100 then level + 25 / 1000 else level) + 25 / 1000
        else if noise > 2 / 100 then level + 25 / 1000 else level)
    = level + (if noise > 2 / 100 then 25 / 1000 else 0)
      + (if shots < 4096 then 25 / 1000 else 0)
      - (if shots ≥ 16384 then 5 / 100 else 0) := by
  split_ifs <;> ring

/-- C2 as amended: `z_critical` equals the spec-side mapping — in fixed
mode the three-quantile map on the configured level, in adaptive mode the
adjusted-and-clamped level fed through the map extended with the branch
`adjusted ≥ 0.975 → 2.24` — and the returned value is always one of
1.645, 1.96, 2.24, 2.575. -/
theorem claim_C2_z_critical (st : StatisticalTest) (shots : ℕ) (noise : ℚ) :
    st.z_critical shots noise = spec_z_critical st.mode st.level shots noise ∧
    (st.z_critical shots noise = 1645 / 1000 ∨
     st.z_critical shots noise = 1960 / 1000 ∨
     st.z_critical shots noise = 224 / 100 ∨
     st.z_critical shots noise = 2575 / 1000) := by
  obtain ⟨mode, level⟩ := st
  have hmain : StatisticalTest.z_critical ⟨mode, level⟩ shots noise
      = spec_z_critical mode level shots noise := by
    cases mode with
    | Fixed =>
      simp [StatisticalTest.z_critical, StatisticalTest.fixed_critical,
        spec_z_critical, stats.Z_CRIT_99, stats.Z_CRIT_95, stats.Z_CRIT_90]
    | Adaptive =>
      simp only [StatisticalTest.z_critical, StatisticalTest.adaptive_critical,
        spec_z_critical, adaptive_adjust_eq]
  have hquant : ∀ lv : ℚ,
      (StatisticalTest.adaptive_quantile lv = 1645 / 1000 ∨
       StatisticalTest.adaptive_quantile lv = 1960 / 1000 ∨
       StatisticalTest.adaptive_quantile lv = 224 / 100 ∨
       StatisticalTest.adaptive_quantile lv = 2575 / 1000) := by
    intro lv
    simp only [StatisticalTest.adaptive_quantile, stats.Z_CRIT_99,
      stats.Z_CRIT_95, stats.Z_CRIT_90]
    split_ifs <;> norm_num
  refine ⟨hmain, ?_⟩
  rw [hmain]
  cases mode with
  | Fixed =>
    simp only [spec_z_critical]
    split_ifs <;> norm_num
  | Adaptive => exact hquant _

/-- Helper for C8: the signed parity sum equals twice the even-count sum
minus the total (stated over `ℚ`). -/
theorem weighted_sum_eq (counts : Counts) :
    (((counts.map fun e => (if Parity.is_even e.1 then (1 : ℤ) else -1) * (e.2 : ℤ)).sum : ℤ) : ℚ)
      = 2 * ((((counts.filter fun e => Parity.is_even e.1).map Prod.snd).sum : ℕ) : ℚ)
        - ((Parity.total counts : ℕ) : ℚ) := by
  induction counts with
  | nil => simp [Parity.total]
  | cons hd tl ih =>
    by_cases he : Parity.is_even hd.1
    · simp only [List.map_cons, List.sum_cons, List.filter_cons, he, if_pos,
        Parity.total] at ih ⊢
      push_cast at ih ⊢
      linarith
    · simp only [List.map_cons, List.sum_cons, List.filter_cons, he,
        Bool.false_eq_true, if_false, Parity.total] at ih ⊢
      push_cast at ih ⊢
      linarith

/-- Helper for C3: `adaptive_quantile` only returns positive values. -/
theorem adaptive_quantile_pos (lv : ℚ) : 0 < StatisticalTest.adaptive_quantile lv := by
  simp only [StatisticalTest.adaptive_quantile, stats.Z_CRIT_99,
    stats.Z_CRIT_95, stats.Z_CRIT_90]
  split_ifs <;> norm_num

/-- Helper for C3: every critical value the code returns is positive. -/
theorem z_critical_pos (st : StatisticalTest) (shots : ℕ) (noise : ℚ) :
    0 < st.z_critical shots noise := by
  obtain ⟨mode, level⟩ := st
  cases mode with
  | Fixed =>
    simp only [StatisticalTest.z_critical, StatisticalTest.fixed_critical,
      stats.Z_CRIT_99, stats.Z_CRIT_95, stats.Z_CRIT_90]
    split_ifs <;> norm_num
  | Adaptive =>
    simp only [StatisticalTest.z_critical, StatisticalTest.adaptive_critical]
    exact adaptive_quantile_pos _

/-- Helper for C3, bridging the square-free embedded decision to the
spec's `z > z_critical` over the reals: for a positive critical value,
`z_from_parity_exceeds` holds exactly when the standard error
`sqrt(se²)` clears the `1e-10` guard and `|Δ| / sqrt(se²)` exceeds the
critical value. -/
theorem z_exceeds_iff (pp pm : ℚ) (shots : ℕ) (crit : ℚ) (hcrit : 0 < crit) :
    StatisticalTest.z_from_parity_exceeds pp pm shots crit = true ↔
      ((1 / 10 ^ 10 : ℝ) ≤
          Real.sqrt ((StatisticalTest.se_sq_from_parity pp pm shots : ℚ) : ℝ) ∧
        ((crit : ℝ) <
          |(pp : ℝ) - (pm : ℝ)| /
            Real.sqrt ((StatisticalTest.se_sq_from_parity pp pm shots : ℚ) : ℝ))) := by
  have hcast10 : ((1 / 10 ^ 10 : ℝ)) = (((1 / 10 ^ 10 : ℚ) : ℝ)) := by norm_num
  by_cases h0 : shots = 0
  · subst h0
    have hS : StatisticalTest.se_sq_from_parity pp pm 0 = 0 := by
      simp [StatisticalTest.se_sq_from_parity]
    constructor
    · intro h
      simp [StatisticalTest.z_from_parity_exceeds] at h
    · rintro ⟨h1, _⟩
      rw [hS, Rat.cast_zero, Real.sqrt_zero] at h1
      norm_num at h1
  · set S : ℚ := StatisticalTest.se_sq_from_parity pp pm shots with hSdef
    by_cases hS : S < (1 / 10 ^ 10) ^ 2
    · have hLHS : StatisticalTest.z_from_parity_exceeds pp pm shots crit = false := by
        simp only [StatisticalTest.z_from_parity_exceeds, h0, ← hSdef, hS]
        simp
      rw [hLHS]
      constructor
      · intro h
        simp at h
      · rintro ⟨h1, _⟩
        rw [hcast10] at h1
        have h2 : (((1 / 10 ^ 10 : ℚ) : ℝ)) ^ 2 ≤ ((S : ℚ) : ℝ) :=
          (Real.le_sqrt' (by positivity)).mp h1
        rw [← Rat.cast_pow, Rat.cast_le] at h2
        exact absurd h2 (not_le.mpr hS)
    · have hSge : (1 / 10 ^ 10 : ℚ) ^ 2 ≤ S := not_lt.mp hS
      have hSr : (((1 / 10 ^ 10 : ℚ) : ℝ)) ^ 2 ≤ ((S : ℚ) : ℝ) := by
        rw [← Rat.cast_pow, Rat.cast_le]
        exact hSge
      rw [hcast10]
      have hSpos : (0 : ℝ) < ((S : ℚ) : ℝ) := lt_of_lt_of_le (by positivity) hSr
      have hsq_pos : 0 < Real.sqrt ((S : ℚ) : ℝ) := Real.sqrt_pos.mpr hSpos
      have hsq_sq : Real.sqrt ((S : ℚ) : ℝ) ^ 2 = ((S : ℚ) : ℝ) :=
        Real.sq_sqrt hSpos.le
      have hfirst : (((1 / 10 ^ 10 : ℚ) : ℝ)) ≤ Real.sqrt ((S : ℚ) : ℝ) :=
        (Real.le_sqrt' (by positivity)).mpr hSr
      have hLHS : StatisticalTest.z_from_parity_exceeds pp pm shots crit
          = decide (crit ^ 2 * S < (pp - pm) ^ 2) := by
        simp only [StatisticalTest.z_from_parity_exceeds, h0, ← hSdef, hS]
        simp [gt_iff_lt]
      rw [hLHS]
      rw [decide_eq_true_iff]
      constructor
      · intro hq
        refine ⟨hfirst, ?_⟩
        have hqr : ((crit : ℝ)) ^ 2 * ((S : ℚ) : ℝ) < ((pp : ℝ) - pm) ^ 2 := by
          push_cast
          exact_mod_cast hq
        rw [lt_div_iff hsq_pos]
        have hcr : (0 : ℝ) < (crit : ℝ) := by exact_mod_cast hcrit
        have hprod : (0 : ℝ) ≤ (crit : ℝ) * Real.sqrt ((S : ℚ) : ℝ) :=
          mul_nonneg hcr.le hsq_pos.le
        have hsqcmp : ((crit : ℝ) * Real.sqrt ((S : ℚ) : ℝ)) ^ 2
            < |(pp : ℝ) - pm| ^ 2 := by
          rw [mul_pow, hsq_sq, sq_abs]
          exact hqr
        exact (pow_lt_pow_iff_left₀ hprod (abs_nonneg _) (by norm_num)).mp hsqcmp
      · rintro ⟨_, h2⟩
        have hcr : (0 : ℝ) < (crit : ℝ) := by exact_mod_cast hcrit
        rw [lt_div_iff hsq_pos] at h2
        have hprod : (0 : ℝ) ≤ (crit : ℝ) * Real.sqrt ((S : ℚ) : ℝ) :=
          mul_nonneg hcr.le hsq_pos.le
        have hsqcmp : ((crit : ℝ) * Real.sqrt ((S : ℚ) : ℝ)) ^ 2
            < |(pp : ℝ) - pm| ^ 2 :=
          pow_lt_pow_left h2 hprod (by norm_num)
        rw [mul_pow, hsq_sq, sq_abs] at hsqcmp
        exact_mod_cast hsqcmp

/-- C3 as amended: the test is a tie exactly when `|Δ| < 1e-9`; otherwise
it is significant exactly when the standard error clears the `1e-10`
guard (below it the code degrades to `z = 0`, which is never significant)
and `z = |Δ|/se` exceeds the (positive) critical value; a significant
result carries direction `Plus` when `parity_plus > parity_minus` and
`Minus` otherwise; and the spec's concrete case is significant-`Plus`. -/
theorem claim_C3_test (st : StatisticalTest) (pp pm : ℚ) (shots : ℕ) (noise : ℚ)
    (hpp : |pp| ≤ 1) (hpm : |pm| ≤ 1) (hshots : 0 < shots) :
    ((st.test pp pm shots noise).is_tie = true ↔ |pp - pm| < 1 / 10 ^ 9) ∧
    ((st.test pp pm shots noise).is_tie = false →
      ((st.test pp pm shots noise).is_significant = true ↔
        ((1 / 10 ^ 10 : ℝ) ≤
            Real.sqrt ((StatisticalTest.se_sq_from_parity pp pm shots : ℚ) : ℝ) ∧
          (((st.z_critical shots noise : ℚ) : ℝ) <
            |(pp : ℝ) - (pm : ℝ)| /
              Real.sqrt ((StatisticalTest.se_sq_from_parity pp pm shots : ℚ) : ℝ))))) ∧
    ((st.test pp pm shots noise).is_significant = true →
      (st.test pp pm shots noise).direction =
        some (if pp > pm then Direction.Plus else Direction.Minus)) ∧
    (StatisticalTest.fixed (95 / 100)).test (8 / 10) (2 / 10) 8192 (2 / 100) =
      TestResult.significant Direction.Plus := by
  have hconc : (StatisticalTest.fixed (95 / 100)).test (8 / 10) (2 / 10) 8192 (2 / 100) =
      TestResult.significant Direction.Plus := by
    have habs : |(8 / 10 : ℚ) - 2 / 10| = 3 / 5 := by
      rw [show (8 / 10 : ℚ) - 2 / 10 = 3 / 5 by norm_num,
        abs_of_nonneg (by norm_num : (0 : ℚ) ≤ 3 / 5)]
    have hc95 : (StatisticalTest.fixed (95 / 100)).z_critical 8192 (2 / 100)
        = 1960 / 1000 := by
      norm_num [StatisticalTest.z_critical, StatisticalTest.fixed_critical,
        StatisticalTest.fixed, stats.Z_CRIT_95]
    have hz : StatisticalTest.z_from_parity_exceeds (8 / 10) (2 / 10) 8192
        ((StatisticalTest.fixed (95 / 100)).z_critical 8192 (2 / 100)) = true := by
      rw [hc95]
      simp only [StatisticalTest.z_from_parity_exceeds,
        StatisticalTest.se_sq_from_parity]
      rw [if_neg (by norm_num : ¬(8192 : ℕ) = 0),
        if_neg (by norm_num : ¬((1 - (8 / 10 : ℚ) ^ 2) / (8192 : ℕ)
          + (1 - (2 / 10 : ℚ) ^ 2) / (8192 : ℕ) < (1 / 10 ^ 10) ^ 2))]
      rw [decide_eq_true_iff]
      norm_num
    simp only [StatisticalTest.test, StatisticalTest.TIE_EPSILON]
    rw [if_neg (by rw [habs]; norm_num), if_pos hz,
      if_pos (by norm_num : (2 / 10 : ℚ) < 8 / 10)]
  by_cases htie : |pp - pm| < 1 / 10 ^ 9
  · have htest : st.test pp pm shots noise = TestResult.tie := by
      simp only [StatisticalTest.test, StatisticalTest.TIE_EPSILON]
      rw [if_pos htie]
    refine ⟨?_, ?_, ?_, hconc⟩
    · rw [htest]
      exact iff_of_true rfl htie
    · intro h
      rw [htest] at h
      simp [TestResult.tie] at h
    · intro h
      rw [htest] at h
      simp [TestResult.tie] at h
  · by_cases hz : StatisticalTest.z_from_parity_exceeds pp pm shots
        (st.z_critical shots noise) = true
    · have htest : st.test pp pm shots noise = TestResult.significant
          (if pp > pm then Direction.Plus else Direction.Minus) := by
        simp only [StatisticalTest.test, StatisticalTest.TIE_EPSILON]
        rw [if_neg htie, if_pos hz]
      refine ⟨?_, ?_, ?_, hconc⟩
      · rw [htest]
        exact iff_of_false (by simp [TestResult.significant]) htie
      · intro _
        rw [htest]
        exact iff_of_true rfl
          ((z_exceeds_iff pp pm shots _ (z_critical_pos st shots noise)).mp hz)
      · intro _
        rw [htest]
        rfl
    · have htest : st.test pp pm shots noise = TestResult.insignificant := by
        simp only [StatisticalTest.test, StatisticalTest.TIE_EPSILON]
        rw [if_neg htie, if_neg hz]
      refine ⟨?_, ?_, ?_, hconc⟩
      · rw [htest]
        exact iff_of_false (by simp [TestResult.insignificant]) htie
      · intro _
        rw [htest]
        refine iff_of_false (by simp [TestResult.insignificant]) ?_
        intro h
        exact absurd ((z_exceeds_iff pp pm shots _
          (z_critical_pos st shots noise)).mpr h) hz
      · intro h
        rw [htest] at h
        simp [TestResult.insignificant] at h

/-- C3 witness at the spec's concrete case. -/
theorem claim_C3_witness :
    (|(8 / 10 : ℚ)| ≤ 1 ∧ |(2 / 10 : ℚ)| ≤ 1 ∧ (0 : ℕ) < 8192) ∧
    ((((StatisticalTest.fixed (95 / 100)).test (8 / 10) (2 / 10) 8192 (2 / 100)).is_tie = true ↔
        |(8 / 10 : ℚ) - 2 / 10| < 1 / 10 ^ 9) ∧
      (((StatisticalTest.fixed (95 / 100)).test (8 / 10) (2 / 10) 8192 (2 / 100)).is_tie = false →
        ((((StatisticalTest.fixed (95 / 100)).test (8 / 10) (2 / 10) 8192 (2 / 100)).is_significant = true ↔
          ((1 / 10 ^ 10 : ℝ) ≤
              Real.sqrt ((StatisticalTest.se_sq_from_parity (8 / 10) (2 / 10) 8192 : ℚ) : ℝ) ∧
            ((((StatisticalTest.fixed (95 / 100)).z_critical 8192 (2 / 100) : ℚ) : ℝ) <
              |((8 / 10 : ℚ) : ℝ) - ((2 / 10 : ℚ) : ℝ)| /
                Real.sqrt ((StatisticalTest.se_sq_from_parity (8 / 10) (2 / 10) 8192 : ℚ) : ℝ)))))) ∧
      (((StatisticalTest.fixed (95 / 100)).test (8 / 10) (2 / 10) 8192 (2 / 100)).is_significant = true →
        ((StatisticalTest.fixed (95 / 100)).test (8 / 10) (2 / 10) 8192 (2 / 100)).direction =
          some (if (8 / 10 : ℚ) > 2 / 10 then Direction.Plus else Direction.Minus)) ∧
      (StatisticalTest.fixed (95 / 100)).test (8 / 10) (2 / 10) 8192 (2 / 100) =
        TestResult.significant Direction.Plus) :=
  ⟨⟨by rw [abs_of_nonneg (by norm_num : (0 : ℚ) ≤ 8 / 10)]; norm_num,
    by rw [abs_of_nonneg (by norm_num : (0 : ℚ) ≤ 2 / 10)]; norm_num,
    by norm_num⟩,
    claim_C3_test (StatisticalTest.fixed (95 / 100)) (8 / 10) (2 / 10) 8192 (2 / 100)
      (by rw [abs_of_nonneg (by norm_num : (0 : ℚ) ≤ 8 / 10)]; norm_num)
      (by rw [abs_of_nonneg (by norm_num : (0 : ℚ) ≤ 2 / 10)]; norm_num)
      (by norm_num)⟩

/-- C3 counterexample to the claim as stated: at
`(parity_plus, parity_minus, shots) = (0.999, -0.999, 10^18)` the standard
error is below the `1e-10` guard, so the code returns *insignificant*,
yet the claim's formula `z = |Δ|/se` exceeds the critical value. -/
theorem claim_C3_counterexample :
    (StatisticalTest.fixed (95 / 100)).test (999 / 1000) (-(999 / 1000)) (10 ^ 18) (2 / 100)
      = TestResult.insignificant ∧
    (((StatisticalTest.fixed (95 / 100)).z_critical (10 ^ 18) (2 / 100) : ℚ) : ℝ) <
      |((999 / 1000 : ℚ) : ℝ) - ((-(999 / 1000) : ℚ) : ℝ)| /
        Real.sqrt
          ((StatisticalTest.se_sq_from_parity (999 / 1000) (-(999 / 1000)) (10 ^ 18) : ℚ) : ℝ) := by
  have hS : StatisticalTest.se_sq_from_parity (999 / 1000) (-(999 / 1000)) (10 ^ 18)
      = 3998 / 10 ^ 24 := by
    simp only [StatisticalTest.se_sq_from_parity]
    norm_num
  have hcrit : (StatisticalTest.fixed (95 / 100)).z_critical (10 ^ 18) (2 / 100)
      = 1960 / 1000 := by
    norm_num [StatisticalTest.z_critical, StatisticalTest.fixed_critical,
      StatisticalTest.fixed, stats.Z_CRIT_95]
  have habs : |(999 / 1000 : ℚ) - -(999 / 1000)| = 1998 / 1000 := by
    rw [show (999 / 1000 : ℚ) - -(999 / 1000) = 1998 / 1000 by norm_num,
      abs_of_nonneg (by norm_num : (0 : ℚ) ≤ 1998 / 1000)]
  constructor
  · have hz : StatisticalTest.z_from_parity_exceeds (999 / 1000) (-(999 / 1000)) (10 ^ 18)
        ((StatisticalTest.fixed (95 / 100)).z_critical (10 ^ 18) (2 / 100)) = false := by
      have hguard : StatisticalTest.se_sq_from_parity (999 / 1000) (-(999 / 1000)) (10 ^ 18)
          < (1 / 10 ^ 10) ^ 2 := by
        rw [hS]
        norm_num
      simp only [StatisticalTest.z_from_parity_exceeds]
      rw [if_neg (by norm_num : ¬(10 ^ 18 : ℕ) = 0), if_pos hguard]
    have hzn : ¬(StatisticalTest.z_from_parity_exceeds (999 / 1000) (-(999 / 1000)) (10 ^ 18)
        ((StatisticalTest.fixed (95 / 100)).z_critical (10 ^ 18) (2 / 100)) = true) := by
      rw [hz]
      exact Bool.false_ne_true
    simp only [StatisticalTest.test, StatisticalTest.TIE_EPSILON]
    rw [if_neg (by rw [habs]; norm_num), if_neg hzn]
  · rw [hS, hcrit]
    have hpos : (0 : ℝ) < ((3998 / 10 ^ 24 : ℚ) : ℝ) := by norm_num
    have hsq_pos : 0 < Real.sqrt ((3998 / 10 ^ 24 : ℚ) : ℝ) := Real.sqrt_pos.mpr hpos
    have hlt : Real.sqrt ((3998 / 10 ^ 24 : ℚ) : ℝ) < 1 / 10 ^ 10 := by
      rw [Real.sqrt_lt' (by norm_num)]
      norm_num
    have habs : |((999 / 1000 : ℚ) : ℝ) - ((-(999 / 1000) : ℚ) : ℝ)| = 1998 / 1000 := by
      norm_num
    rw [habs]
    have hchain : (1998 / 1000 : ℝ) / (1 / 10 ^ 10)
        < (1998 / 1000 : ℝ) / Real.sqrt ((3998 / 10 ^ 24 : ℚ) : ℝ) :=
      div_lt_div_of_pos_left (by norm_num) hsq_pos hlt
    have : ((1960 / 1000 : ℚ) : ℝ) < (1998 / 1000 : ℝ) / (1 / 10 ^ 10) := by norm_num
    linarith

/-- C8: for every counts map (the empty map included) the even and odd
parity probabilities sum to 1 and the parity expectation equals their
difference — both hold as exact rational identities, hence in particular
within `1e-9`. -/
theorem claim_C8_parity (counts : Counts) :
    Parity.p_even counts + Parity.p_odd counts = 1 ∧
    Parity.expectation counts = Parity.p_even counts - Parity.p_odd counts := by
  constructor
  · simp [Parity.p_odd]
  · by_cases h : Parity.total counts = 0
    · simp [Parity.expectation, Parity.p_even, Parity.p_odd, h]
      norm_num
    · have ht : ((Parity.total counts : ℚ)) ≠ 0 := by exact_mod_cast h
      simp only [Parity.expectation, Parity.p_even, Parity.p_odd, if_neg h]
      rw [weighted_sum_eq]
      field_simp
      ring

/-- Helper for C10: a successful `add_gate` preserves the qubit-range
invariant (and establishes it for the added gate, which the success of the
range scan guarantees). -/
theorem add_gate_ok_valid {c c2 : Circuit} {g : Gate} (hc : c.valid)
    (hok : c.add_gate g = Except.ok c2) : c2.valid := by
  unfold Circuit.add_gate at hok
  cases hfind : g.qubits.find? fun q => decide (q ≥ c.num_qubits) with
  | some q => rw [hfind] at hok; simp at hok
  | none =>
    rw [hfind] at hok
    simp only [Except.ok.injEq] at hok
    subst hok
    intro g2 hg2 q hq
    rcases List.mem_append.mp hg2 with h | h
    · exact hc g2 h q hq
    · have hg : g2 = g := by simpa using h
      subst hg
      have := List.find?_eq_none.mp hfind q hq
      simp only [decide_eq_true_eq] at this
      exact lt_of_not_ge this

/-- C10: every circuit reachable through the construction surface keeps
all gate qubit indices below `num_qubits`; and a builder method handed a
gate with an out-of-range qubit leaves the builder unchanged (the error
from `add_gate` is discarded) while `build` still returns the unchanged
circuit. -/
theorem claim_C10_circuit_invariant :
    (∀ c : Circuit, ReachableCircuit c → c.valid) ∧
    (∀ (b : CircuitBuilder) (g : Gate),
      (∃ q ∈ g.qubits, b.circuit.num_qubits ≤ q) →
      b.add_ignored g = b ∧ (b.add_ignored g).build = b.circuit) := by
  constructor
  · intro c hc
    induction hc with
    | new n => intro g hg; simp [Circuit.new] at hg
    | add_gate_ok _ hok ih => exact add_gate_ok_valid ih hok
    | from_gates_ok hok =>
      rename_i n gs c2
      simp only [Circuit.from_gates, Circuit.validate_gates] at hok
      dsimp only at hok
      cases hf2 : (gs.flatMap Gate.qubits).find? fun q => decide (q ≥ n) with
      | some q => rw [hf2] at hok; simp at hok
      | none =>
        rw [hf2] at hok
        simp only [Except.ok.injEq] at hok
        subst hok
        intro g hg q hq
        have hmem : q ∈ gs.flatMap Gate.qubits :=
          List.mem_flatMap.mpr ⟨g, hg, hq⟩
        have := List.find?_eq_none.mp hf2 q hmem
        simp only [decide_eq_true_eq] at this
        exact lt_of_not_ge this
    | builder_step g hr ih =>
      rename_i c2
      unfold CircuitBuilder.add_ignored
      cases hadd : c2.add_gate g with
      | ok c3 => simp only [hadd]; exact add_gate_ok_valid ih hadd
      | error e => simp only [hadd]; exact ih
    | clear _ ih => intro g hg; simp [Circuit.clear] at hg
  · intro b g hbad
    obtain ⟨q, hq, hge⟩ := hbad
    have hfind : (g.qubits.find? fun q => decide (q ≥ b.circuit.num_qubits)).isSome := by
      rw [List.find?_isSome]
      exact ⟨q, hq, by simpa using hge⟩
    have hb : b.add_ignored g = b := by
      unfold CircuitBuilder.add_ignored Circuit.add_gate
      cases hf : g.qubits.find? fun q => decide (q ≥ b.circuit.num_qubits) with
      | some q2 => rfl
      | none => rw [hf] at hfind; simp at hfind
    refine ⟨hb, ?_⟩
    rw [hb]
    rfl

/-- C10 witness: a concretely built circuit is valid, and an out-of-range
builder call is a no-op. -/
theorem claim_C10_witness :
    Circuit.valid (((CircuitBuilder.new 2).h 0).cnot 0 1).build ∧
    ((CircuitBuilder.new 2).add_ignored (Gate.H 5) = CircuitBuilder.new 2 ∧
      ((CircuitBuilder.new 2).add_ignored (Gate.H 5)).build
        = (CircuitBuilder.new 2).circuit) :=
  ⟨claim_C10_circuit_invariant.1 _
      (ReachableCircuit.builder_step (Gate.Cnot 0 1)
        (ReachableCircuit.builder_step (Gate.H 0) (ReachableCircuit.new 2))),
    claim_C10_circuit_invariant.2 (CircuitBuilder.new 2) (Gate.H 5)
      ⟨5, by simp [Gate.qubits], by simp [CircuitBuilder.new, Circuit.new]⟩⟩

/-- C6 as amended: when the gate's error probability (by arity; zero for
operations that are neither single- nor two-qubit) is positive, one
uniform draw is made; if it falls below the probability, the state update
is exactly one Pauli — X, Y or Z picked by a `gen_range(0..3)` draw — on
the gate's first qubit, and the intended gate is not applied; otherwise
the ideal gate is applied. -/
theorem claim_C6_noise_substitution {σ : Type} (R : RngModel σ) (nm : NoiseModel)
    (ops : RealOps) (pi : ℚ) (state : List Cplx) (gate : Gate) (n : ℕ) (rng : σ)
    (q : QubitId) (qs : List QubitId) (hq : gate.qubits = q :: qs)
    (her : 0 < SimulatorBackend.error_rate nm gate) :
    (((R.gen_f64 rng).1 < SimulatorBackend.error_rate nm gate →
      SimulatorBackend.apply_gate R nm ops pi state gate n rng =
        (SimulatorBackend.pauli_pick ((R.gen_range3 (R.gen_f64 rng).2).1) state q n,
          (R.gen_range3 (R.gen_f64 rng).2).2)) ∧
    (¬((R.gen_f64 rng).1 < SimulatorBackend.error_rate nm gate) →
      SimulatorBackend.apply_gate R nm ops pi state gate n rng =
        (SimulatorBackend.apply_ideal ops pi state gate n, (R.gen_f64 rng).2))) := by
  constructor
  · intro h
    simp only [SimulatorBackend.apply_gate]
    rw [if_pos (show SimulatorBackend.error_rate nm gate > 0 from her), if_pos h]
    simp only [SimulatorBackend.apply_random_error, hq]
    rfl
  · intro h
    simp only [SimulatorBackend.apply_gate]
    rw [if_pos (show SimulatorBackend.error_rate nm gate > 0 from her), if_neg h]

/-- C6 witness: a Hadamard gate under a 3/4 single-qubit error rate with
the counting generator. -/
theorem claim_C6_witness :
    ((Gate.H 0).qubits = 0 :: ([] : List QubitId) ∧
      0 < SimulatorBackend.error_rate noisy_model (Gate.H 0)) ∧
    (((countRng.gen_f64 0).1 < SimulatorBackend.error_rate noisy_model (Gate.H 0) →
      SimulatorBackend.apply_gate countRng noisy_model RealOps.trivial (314 / 100)
          [Cplx.one, Cplx.zero] (Gate.H 0) 1 0 =
        (SimulatorBackend.pauli_pick ((countRng.gen_range3 (countRng.gen_f64 0).2).1)
            [Cplx.one, Cplx.zero] 0 1,
          (countRng.gen_range3 (countRng.gen_f64 0).2).2)) ∧
    (¬((countRng.gen_f64 0).1 < SimulatorBackend.error_rate noisy_model (Gate.H 0)) →
      SimulatorBackend.apply_gate countRng noisy_model RealOps.trivial (314 / 100)
          [Cplx.one, Cplx.zero] (Gate.H 0) 1 0 =
        (SimulatorBackend.apply_ideal RealOps.trivial (314 / 100)
            [Cplx.one, Cplx.zero] (Gate.H 0) 1, (countRng.gen_f64 0).2))) :=
  ⟨⟨rfl, by norm_num [SimulatorBackend.error_rate, noisy_model,
      Gate.is_two_qubit, Gate.is_single_qubit]⟩,
    claim_C6_noise_substitution countRng noisy_model RealOps.trivial (314 / 100)
      [Cplx.one, Cplx.zero] (Gate.H 0) 1 0 0 [] rfl
      (by norm_num [SimulatorBackend.error_rate, noisy_model,
        Gate.is_two_qubit, Gate.is_single_qubit])⟩

/-- C6 counterexample to the claim as stated: for a barrier gate (error
rate zero by arity) no random value is drawn at all — with the counting
generator the generator state is returned untouched, although the claim
says a uniform value is drawn before every gate. -/
theorem claim_C6_counterexample :
    SimulatorBackend.apply_gate countRng noisy_model RealOps.trivial (314 / 100)
        [Cplx.one, Cplx.zero] (Gate.Barrier []) 1 0 = ([Cplx.one, Cplx.zero], 0) ∧
    (countRng.gen_f64 0).2 ≠ 0 := by
  constructor
  · have her0 : SimulatorBackend.error_rate noisy_model (Gate.Barrier []) = 0 := rfl
    simp only [SimulatorBackend.apply_gate, her0]
    rw [if_neg (by norm_num : ¬((0 : ℚ) > 0))]
    rfl
  · decide

/-- C7: executing the seeded simulator is a function of the circuit, shot
count, qubit budget, noise model and seed alone — two backends agreeing on
those (regardless of name or entropy input) produce identical counts. -/
theorem claim_C7_determinism {σ : Type} (R : RngModel σ) (ops : RealOps) (pi : ℚ)
    (b1 b2 : SimulatorBackend) (circuit : Circuit) (shots : ℕ) (s : ℕ)
    (h1 : b1.seed = some s) (h2 : b2.seed = some s)
    (hn : b1.num_qubits = b2.num_qubits) (hm : b1.noise_model = b2.noise_model)
    (e1 e2 : σ) :
    (SimulatorBackend.execute R ops pi b1 circuit shots e1).map ExecutionResult.counts =
      (SimulatorBackend.execute R ops pi b2 circuit shots e2).map ExecutionResult.counts := by
  obtain ⟨n1, q1, m1, s1⟩ := b1
  obtain ⟨n2, q2, m2, s2⟩ := b2
  simp only at h1 h2 hn hm
  subst h1 h2 hn hm
  simp only [SimulatorBackend.execute]
  by_cases hc : circuit.num_qubits > q1
  · rw [if_pos hc, if_pos hc]
  · rw [if_neg hc, if_neg hc]
    rfl

/-- C7 witness: the same seeded 1-qubit backend under two names and two
entropy inputs yields the same counts on a concrete circuit. -/
theorem claim_C7_witness :
    ((seeded_backend "left").seed = some 7 ∧ (seeded_backend "right").seed = some 7 ∧
      (seeded_backend "left").num_qubits = (seeded_backend "right").num_qubits ∧
      (seeded_backend "left").noise_model = (seeded_backend "right").noise_model) ∧
    (SimulatorBackend.execute countRng RealOps.trivial (314 / 100)
        (seeded_backend "left") x_circuit 2 0).map ExecutionResult.counts =
      (SimulatorBackend.execute countRng RealOps.trivial (314 / 100)
        (seeded_backend "right") x_circuit 2 99).map ExecutionResult.counts :=
  ⟨⟨rfl, rfl, rfl, rfl⟩,
    claim_C7_determinism countRng RealOps.trivial (314 / 100) (seeded_backend "left")
      (seeded_backend "right") x_circuit 2 7 rfl rfl rfl rfl 0 99⟩

/-- Helper for C9: a `filterMap` whose function succeeds on every element
is a `map`. -/
theorem filterMap_eq_map_of_mem {α β : Type} (l : List α) (g : α → Option β)
    (f : α → β) (h : ∀ a ∈ l, g a = some (f a)) : l.filterMap g = l.map f := by
  induction l with
  | nil => rfl
  | cons a l ih =>
    rw [List.filterMap_cons, h a (by simp), List.map_cons,
      ih fun b hb => h b (by simp [hb])]

/-- Helper for C9: setting an entry of a mapped range updates the mapped
function at that point. -/
theorem map_range_set (f : ℕ → ℚ) (n i : ℕ) (hi : i < n) (e : ℚ) :
    ((List.range n).map f).set i e
      = (List.range n).map fun q => if q = i then e else f q := by
  apply List.ext_getElem?
  intro j
  rw [List.getElem?_set]
  simp only [List.length_map, List.length_range, List.getElem?_map]
  by_cases hij : i = j
  · subst hij
    rw [if_pos rfl, if_pos hi, List.getElem?_range hi]
    simp
  · rw [if_neg hij]
    by_cases hj : j < n
    · rw [List.getElem?_range hj]
      simp [show ¬(j = i) from fun h => hij h.symm]
    · rw [List.getElem?_eq_none (by simp [List.length_range]; omega)]
      simp

/-- Helper for C9: the per-qubit availability updates of
`update_availability`, folded over the touched qubits, advance exactly the
touched entries. -/
theorem foldl_set_range (qs : List ℕ) (e : ℚ) (n : ℕ) (f : ℕ → ℚ)
    (hval : ∀ q ∈ qs, q < n) :
    qs.foldl (fun avail q => if q < n then avail.set q e else avail)
        ((List.range n).map f)
      = (List.range n).map fun q => if q ∈ qs then e else f q := by
  induction qs generalizing f with
  | nil => simp
  | cons q0 qs ih =>
    have hq0 : q0 < n := hval q0 (by simp)
    rw [List.foldl_cons, if_pos hq0, map_range_set f n q0 hq0 e,
      ih (fun q => if q = q0 then e else f q) fun q hq => hval q (by simp [hq])]
    apply List.map_congr_left
    intro q hq
    by_cases h1 : q ∈ qs
    · simp [h1]
    · by_cases h2 : q = q0 <;> simp [h1, h2]

/-- Helper for C9: `schedule_gate` on an availability list that tabulates
the function `f` returns exactly the spec's start rule and
`end = start + duration`. -/
theorem schedule_gate_start (g : Gate) (gt : GateTimes) (n : ℕ) (f : ℕ → ℚ)
    (hval : ∀ q ∈ g.qubits, q < n) :
    Scheduler.schedule_gate g ((List.range n).map f) gt
      = (SchedSpec.avail_start f n g,
          SchedSpec.avail_start f n g + gt.gate_duration g) := by
  simp only [Scheduler.schedule_gate, SchedSpec.avail_start, Scheduler.fold_max]
  by_cases hemp : g.qubits.isEmpty
  · rw [if_pos hemp, if_pos hemp]
  · rw [if_neg hemp, if_neg hemp]
    rw [filterMap_eq_map_of_mem g.qubits _ f ?_]
    intro q hq
    rw [List.get?_eq_getElem?, List.getElem?_map, List.getElem?_range (hval q hq)]
    rfl

/-- Helper for C9: `update_availability` on a tabulated availability list
is the spec's availability-update rule. -/
theorem update_avail_spec (g : Gate) (e : ℚ) (n : ℕ) (f : ℕ → ℚ)
    (hval : ∀ q ∈ g.qubits, q < n) :
    Scheduler.update_availability g e ((List.range n).map f) n
      = (List.range n).map (SchedSpec.avail_next f n g e) := by
  unfold Scheduler.update_availability SchedSpec.avail_next
  by_cases hemp : g.qubits.isEmpty
  · rw [if_pos hemp, List.map_map]
    apply List.map_congr_left
    intro q hq
    have hqn : q < n := List.mem_range.mp hq
    simp [hemp, hqn, Function.comp]
  · rw [if_neg hemp, foldl_set_range g.qubits e n f hval]
    apply List.map_congr_left
    intro q hq
    simp [hemp]

/-- Helper for C9: the scheduling loop, started on a tabulated
availability list, realizes the spec's gate-by-gate timing rules, keeps
the gates in sequence order, and numbers them consecutively. -/
theorem asap_loop_spec (gt : GateTimes) (n : ℕ) (gs : List Gate) :
    ∀ (f : ℕ → ℚ) (k : ℕ), (∀ g ∈ gs, ∀ q ∈ g.qubits, q < n) →
    ((Scheduler.asap_loop gt n gs k ((List.range n).map f)).1.map
        (fun sg => (sg.start_time_ns, sg.end_time_ns)) = SchedSpec.times gt n f gs) ∧
    ((Scheduler.asap_loop gt n gs k ((List.range n).map f)).1.map
        ScheduledGate.gate = gs) ∧
    ((Scheduler.asap_loop gt n gs k ((List.range n).map f)).1.map
        ScheduledGate.gate_idx = List.range' k gs.length) := by
  induction gs with
  | nil =>
    intro f k _
    simp [Scheduler.asap_loop, SchedSpec.times, List.range']
  | cons g rest ih =>
    intro f k hval
    have hg : ∀ q ∈ g.qubits, q < n := hval g (by simp)
    have hrest : ∀ g2 ∈ rest, ∀ q ∈ g2.qubits, q < n :=
      fun g2 h2 => hval g2 (by simp [h2])
    simp only [Scheduler.asap_loop]
    rw [schedule_gate_start g gt n f hg]
    dsimp only
    rw [update_avail_spec g _ n f hg]
    obtain ⟨ih1, ih2, ih3⟩ := ih
      (SchedSpec.avail_next f n g (SchedSpec.avail_start f n g + gt.gate_duration g))
      (k + 1) hrest
    refine ⟨?_, ?_, ?_⟩
    · simp only [List.map_cons, ih1, SchedSpec.times]
    · simp only [List.map_cons, ih2]
    · simp [ih3, List.range'_succ]

/-- C9: for every circuit (whose gates respect the qubit budget — the
invariant of claim C10) and duration table, `compute_asap` assigns each
gate, in sequence order, the spec's start time (the maximum availability
over its qubits, 0 for untouched qubits, the maximum over all qubits for
zero-qubit operations), end time `start + duration`, and advances every
touched qubit's availability (all qubits for zero-qubit operations) to
the end time — stated as agreement with the availability-function
recursion `SchedSpec.times` started from the all-zero availability. -/
theorem claim_C9_asap (circuit : Circuit) (gt : GateTimes)
    (hval : ∀ g ∈ circuit.gates, ∀ q ∈ g.qubits, q < circuit.num_qubits) :
    ((Scheduler.compute_asap circuit gt).gates.map
        (fun sg => (sg.start_time_ns, sg.end_time_ns)) =
      SchedSpec.times gt circuit.num_qubits (fun _ => 0) circuit.gates) ∧
    ((Scheduler.compute_asap circuit gt).gates.map ScheduledGate.gate
      = circuit.gates) ∧
    ((Scheduler.compute_asap circuit gt).gates.map ScheduledGate.gate_idx =
      List.range circuit.gates.length) := by
  unfold Scheduler.compute_asap
  by_cases hemp : circuit.is_empty
  · rw [if_pos hemp]
    have hgates : circuit.gates = [] := by
      simpa [Circuit.is_empty] using hemp
    simp [CircuitSchedule.empty, hgates, SchedSpec.times]
  · rw [if_neg hemp]
    have hrepl : (List.replicate circuit.num_qubits (0 : ℚ))
        = (List.range circuit.num_qubits).map fun _ => (0 : ℚ) := by
      rw [List.map_const', List.length_range]
    rw [hrepl]
    obtain ⟨h1, h2, h3⟩ := asap_loop_spec gt circuit.num_qubits circuit.gates
      (fun _ => 0) 0 hval
    exact ⟨h1, h2, by rw [h3, List.range_eq_range']⟩

/-- C9 witness on a concrete 2-qubit circuit and duration table. -/
theorem claim_C9_witness :
    (∀ g ∈ sched_circuit.gates, ∀ q ∈ g.qubits, q < sched_circuit.num_qubits) ∧
    (((Scheduler.compute_asap sched_circuit sched_times).gates.map
        (fun sg => (sg.start_time_ns, sg.end_time_ns)) =
      SchedSpec.times sched_times sched_circuit.num_qubits (fun _ => 0)
        sched_circuit.gates) ∧
    ((Scheduler.compute_asap sched_circuit sched_times).gates.map ScheduledGate.gate
      = sched_circuit.gates) ∧
    ((Scheduler.compute_asap sched_circuit sched_times).gates.map
        ScheduledGate.gate_idx = List.range sched_circuit.gates.length)) :=
  ⟨by decide, claim_C9_asap sched_circuit sched_times (by decide)⟩

/-- Helper for C1: a fresh convergence controller does not report
convergence (its window is empty). -/
theorem from_noise_check (q : ℕ) (noise : ℚ) :
    (Convergence.from_noise q noise).check = false := by
  simp [Convergence.from_noise, Convergence.new, Convergence.check,
    Convergence.window_condition]

/-- Helper for C1: one outer iteration appends exactly one history record
and pushes exactly that record's improvement into the convergence
controller, leaving the early-stop flag alone. -/
theorem outer_iter_shape (cfg : TqqcConfig) (di : DynamicInner)
    (st : StatisticalTest) (oracle : ℚ → ℚ → ℚ) (rng : ℕ → ℚ) (it : ℕ)
    (s : TqqcEngine.OuterState) :
    ∃ rec : IterationRecord,
      (TqqcEngine.outer_iter cfg di st oracle rng it s).history
        = s.history ++ [rec] ∧
      (TqqcEngine.outer_iter cfg di st oracle rng it s).convergence
        = s.convergence.push rec.improvement ∧
      (TqqcEngine.outer_iter cfg di st oracle rng it s).early_stopped
        = s.early_stopped :=
  ⟨_, rfl, rfl, rfl⟩

/-- Helper for C1: the outer loop with its break satisfies the early-stop
characterization, given that the controller state is the replay of the
improvements pushed so far and no prefix has converged yet. -/
theorem outer_loop_spec (cfg : TqqcConfig) (di : DynamicInner)
    (st : StatisticalTest) (oracle : ℚ → ℚ → ℚ) (rng : ℕ → ℚ)
    (hdyn : cfg.dynamic_inner = true) :
    ∀ (fuel iteration : ℕ) (s : TqqcEngine.OuterState),
      s.early_stopped = false →
      s.history.length = iteration →
      s.convergence = (s.history.map IterationRecord.improvement).foldl
        Convergence.push (Convergence.from_noise cfg.qubits cfg.noise) →
      (∀ k ≤ iteration,
        check_after cfg (s.history.map IterationRecord.improvement) k = false) →
      loop_conclusion cfg (iteration + fuel)
        (TqqcEngine.outer_loop cfg di st oracle rng fuel iteration s) := by
  intro fuel
  induction fuel with
  | zero =>
    intro iteration s h1 h2 h3 h4
    simp only [TqqcEngine.outer_loop, loop_conclusion]
    constructor
    · intro hes
      exact absurd (h1.symm.trans hes) Bool.false_ne_true
    · intro _
      exact ⟨by omega, fun k hk => h4 k (by omega)⟩
  | succ fuel ih =>
    intro iteration s h1 h2 h3 h4
    obtain ⟨rec, hh, hcv, hes⟩ := outer_iter_shape cfg di st oracle rng iteration s
    set s2 := TqqcEngine.outer_iter cfg di st oracle rng iteration s with hs2
    have hlen2 : s2.history.length = iteration + 1 := by
      rw [hh, List.length_append, h2]
      rfl
    have himps2 : s2.history.map IterationRecord.improvement
        = s.history.map IterationRecord.improvement ++ [rec.improvement] := by
      rw [hh]
      simp
    have hcv2 : s2.convergence
        = (s2.history.map IterationRecord.improvement).foldl Convergence.push
          (Convergence.from_noise cfg.qubits cfg.noise) := by
      rw [himps2, List.foldl_append]
      simp only [List.foldl_cons, List.foldl_nil]
      rw [← h3]
      exact hcv
    have hpref : ∀ k ≤ iteration,
        check_after cfg (s2.history.map IterationRecord.improvement) k
          = check_after cfg (s.history.map IterationRecord.improvement) k := by
      intro k hk
      unfold check_after
      rw [himps2, List.take_append_of_le_length (by rw [List.length_map, h2]; exact hk)]
    have hfull : check_after cfg (s2.history.map IterationRecord.improvement)
        s2.history.length = s2.convergence.check := by
      unfold check_after
      rw [List.take_of_length_le (by simp), ← hcv2]
    simp only [TqqcEngine.outer_loop]
    rw [← hs2]
    by_cases hc : (cfg.dynamic_inner && s2.convergence.check) = true
    · rw [if_pos hc]
      have hcheck : s2.convergence.check = true := (Bool.and_eq_true_iff.mp hc).2
      constructor
      · intro _
        refine ⟨?_, ?_, ?_⟩
        · show s2.history.length ≤ iteration + (fuel + 1)
          omega
        · show check_after cfg (s2.history.map IterationRecord.improvement)
            s2.history.length = true
          rw [hfull]
          exact hcheck
        · intro k hk
          have hk2 : k ≤ iteration := by
            have := hlen2
            simp only [this] at hk
            omega
          show check_after cfg (s2.history.map IterationRecord.improvement) k = false
          rw [hpref k hk2]
          exact h4 k hk2
      · intro hesF
        simp at hesF
    · rw [if_neg hc]
      have h1' : s2.early_stopped = false := hes.trans h1
      have hcheckf : s2.convergence.check = false := by
        cases hb : s2.convergence.check with
        | false => rfl
        | true => exact absurd (by rw [hdyn, hb]; rfl) hc
      have h4' : ∀ k ≤ iteration + 1,
          check_after cfg (s2.history.map IterationRecord.improvement) k = false := by
        intro k hk
        rcases Nat.lt_or_ge k (iteration + 1) with h | h
        · rw [hpref k (by omega)]
          exact h4 k (by omega)
        · have hke : k = iteration + 1 := by omega
          subst hke
          rw [← hlen2, hfull]
          exact hcheckf
      have hres := ih (iteration + 1) s2 h1' hlen2 hcv2 h4'
      rw [show iteration + 1 + fuel = iteration + (fuel + 1) by omega] at hres
      exact hres

/-- C1 as amended: with the dynamic inner loop enabled, every outer
iteration pushes its improvement (new parity minus previous parity) into
the convergence controller, and the loop breaks exactly at the first push
after which both the window and the cumulative condition hold
(`Convergence.check`, replayed by `check_after`); a run that stopped
early has `early_stopped = true` and at most `points` iterations (fewer
than `points` unless the stop occurred at the final iteration), while a
run that never converged has `early_stopped = false`, exactly `points`
iterations, and a failing check after every push.  (Without the dynamic
inner loop the break is never taken — see the counterexample.) -/
theorem claim_C1_convergence (cfg : TqqcConfig) (oracle : ℚ → ℚ → ℚ)
    (rng : ℕ → ℚ) (hdyn : cfg.dynamic_inner = true) :
    ((TqqcEngine.optimize cfg oracle rng).early_stopped = true →
      (TqqcEngine.optimize cfg oracle rng).iterations ≤ cfg.points ∧
      check_after cfg (TqqcEngine.optimize cfg oracle rng).improvements
        (TqqcEngine.optimize cfg oracle rng).iterations = true ∧
      ∀ k < (TqqcEngine.optimize cfg oracle rng).iterations,
        check_after cfg (TqqcEngine.optimize cfg oracle rng).improvements k
          = false) ∧
    ((TqqcEngine.optimize cfg oracle rng).early_stopped = false →
      (TqqcEngine.optimize cfg oracle rng).iterations = cfg.points ∧
      ∀ k ≤ cfg.points,
        check_after cfg (TqqcEngine.optimize cfg oracle rng).improvements k
          = false) := by
  have hloop := outer_loop_spec cfg (DynamicInner.new cfg.inner_max (9 / 10))
    ⟨cfg.sig_mode, cfg.sig_level⟩ oracle rng hdyn cfg.points 0
    { delta := cfg.delta_init
      last_improve := 0
      total_inner := 0
      parity_current := oracle cfg.theta_init 0
      early_stopped := false
      ties_count := 0
      significant_moves := 0
      history := []
      convergence := Convergence.from_noise cfg.qubits cfg.noise
      rng_ix := 0 }
    rfl rfl rfl
    (by
      intro k hk
      have hk0 : k = 0 := by omega
      subst hk0
      simp only [check_after, List.map_nil, List.take_nil, List.foldl_nil]
      exact from_noise_check cfg.qubits cfg.noise)
  rw [show (0 : ℕ) + cfg.points = cfg.points by omega] at hloop
  exact hloop

/-- C1 witness: the amended characterization applied at a concrete
dynamic-inner configuration. -/
theorem claim_C1_witness :
    cfg_dynamic.dynamic_inner = true ∧
    (((TqqcEngine.optimize cfg_dynamic zero_oracle zero_stream).early_stopped = true →
      (TqqcEngine.optimize cfg_dynamic zero_oracle zero_stream).iterations
          ≤ cfg_dynamic.points ∧
      check_after cfg_dynamic
          (TqqcEngine.optimize cfg_dynamic zero_oracle zero_stream).improvements
          (TqqcEngine.optimize cfg_dynamic zero_oracle zero_stream).iterations = true ∧
      ∀ k < (TqqcEngine.optimize cfg_dynamic zero_oracle zero_stream).iterations,
        check_after cfg_dynamic
          (TqqcEngine.optimize cfg_dynamic zero_oracle zero_stream).improvements k
          = false) ∧
    ((TqqcEngine.optimize cfg_dynamic zero_oracle zero_stream).early_stopped = false →
      (TqqcEngine.optimize cfg_dynamic zero_oracle zero_stream).iterations
          = cfg_dynamic.points ∧
      ∀ k ≤ cfg_dynamic.points,
        check_after cfg_dynamic
          (TqqcEngine.optimize cfg_dynamic zero_oracle zero_stream).improvements k
          = false)) :=
  ⟨rfl, claim_C1_convergence cfg_dynamic zero_oracle zero_stream rfl⟩

set_option maxHeartbeats 2000000 in
/-- C1 counterexample to the claim as stated: with the dynamic inner loop
disabled and a constant-parity backend, both convergence conditions hold
after the third push (all improvements are zero), yet the loop does not
stop early — it runs all `points = 5` iterations with
`early_stopped = false`.  The claim's "for every configuration ... stops
early exactly when both conditions hold" is therefore false: the break is
guarded by `config.dynamic_inner`.  Moreover, with the dynamic inner loop
enabled and `points = 3`, the earliest possible stop falls on the final
iteration: the run has `early_stopped = true` but `iterations = points`,
refuting "fewer than `points` iterations". -/
theorem claim_C1_counterexample :
    (check_after cfg_no_dynamic
      (TqqcEngine.optimize cfg_no_dynamic zero_oracle zero_stream).improvements 3
        = true ∧
    (TqqcEngine.optimize cfg_no_dynamic zero_oracle zero_stream).early_stopped
        = false ∧
    (TqqcEngine.optimize cfg_no_dynamic zero_oracle zero_stream).iterations
      = cfg_no_dynamic.points) ∧
    ((TqqcEngine.optimize cfg_dynamic3 zero_oracle zero_stream).early_stopped
        = true ∧
    (TqqcEngine.optimize cfg_dynamic3 zero_oracle zero_stream).iterations
      = cfg_dynamic3.points) := by
  norm_num [TqqcEngine.optimize, TqqcEngine.outer_loop, TqqcEngine.outer_iter,
    TqqcEngine.inner_step, TqqcEngine.select_direction, DynamicInner.new,
    DynamicInner.compute_count, DynamicInner.compute_step,
    Convergence.from_noise, Convergence.new, Convergence.depth_correction,
    Convergence.push, Convergence.check, Convergence.window_condition,
    Convergence.cumulative_condition, check_after, cfg_no_dynamic, cfg_dynamic3,
    zero_oracle, zero_stream, TqqcResult.improvements, List.range_succ]

end Niso
